import Mathlib

/-!
# Poster-Generation pipeline: verification of the orchestration core

A shallow embedding of the batch poster-generation backend
(`backend/app/services/job_manager.py`, `database.py`, `image_processor.py`,
`html_to_image.py`, `storage_service.py`, `topmate_client.py` and the
`batch_processing` router) together with proofs and refutations of the
behavioural claims made by the specification.

Python strings are modelled as Lean `String`s manipulated through explicit
`List Char` primitives that mirror the semantics of the Python string
methods used by the source (`str.replace`, `str.split`, `str.strip`,
`str.isdigit`, `str.lower`, `str.startswith`), so that every definition is
executable and every concrete claim is decidable.
-/

namespace PosterGen

/-! ## Python string primitives -/

/-- Python `s.split(sep)` for a one-character separator: splits at every
occurrence, keeping empty pieces. -/
def splitOnChar (sep : Char) : List Char → List Char → List (List Char)
  | [], acc => [acc.reverse]
  | x :: xs, acc =>
    if x = sep then acc.reverse :: splitOnChar sep xs []
    else splitOnChar sep xs (x :: acc)

/-- Python `s.strip()`: drop whitespace from both ends. -/
def pyStrip (l : List Char) : List Char :=
  ((l.dropWhile Char.isWhitespace).reverse.dropWhile Char.isWhitespace).reverse

/-- Python `s.isdigit()` (restricted to ASCII digits, which is all the
source ever feeds it). -/
def pyIsDigit (l : List Char) : Bool :=
  !l.isEmpty && l.all Char.isDigit

/-- Decimal digits to a natural number (Python `int(item)` on an
`isdigit` string). -/
def digitsToNat (l : List Char) : Nat :=
  l.foldl (fun n c => n * 10 + (c.toNat - '0'.toNat)) 0

/-- Helper for `pyReplace`: the `Nat` argument is the number of characters
still to be skipped because they belong to an occurrence of `old` that has
already been replaced. -/
def pyReplaceAux (old new : List Char) : List Char → Nat → List Char
  | [], _ => []
  | _ :: rest, n + 1 => pyReplaceAux old new rest n
  | c :: rest, 0 =>
    if old.isPrefixOf (c :: rest) && !old.isEmpty then
      new ++ pyReplaceAux old new rest (old.length - 1)
    else
      c :: pyReplaceAux old new rest 0

/-- Python `s.replace(old, new)`: replace all non-overlapping occurrences,
scanning left to right.  (`old` is never empty at any call site.) -/
def pyReplace (old new l : List Char) : List Char :=
  pyReplaceAux old new l 0

/-- Case-insensitive equality of ASCII characters, as used by Python's
`re.IGNORECASE` and `str.lower()` on the source's inputs. -/
def charLower (c : Char) : Char := c.toLower

def lowerList (l : List Char) : List Char := l.map charLower

/-- `pat` is a prefix of `s`, case-insensitively. -/
def isPrefixCI (pat s : List Char) : Bool :=
  (lowerList pat).isPrefixOf (lowerList s)

/-- `s` contains `pat` as a substring (case-sensitive). -/
def containsSub (pat : List Char) : List Char → Bool
  | [] => pat.isEmpty
  | c :: rest => pat.isPrefixOf (c :: rest) || containsSub pat rest

/-- `s` contains `pat` as a substring, case-insensitively. -/
def containsSubCI (pat s : List Char) : Bool :=
  containsSub (lowerList pat) (lowerList s)

/-- First occurrence (index) of `pat` in `s`, case-insensitively. -/
def findIdxCI (pat : List Char) : List Char → Option Nat
  | [] => if pat.isEmpty then some 0 else none
  | c :: rest =>
    if isPrefixCI pat (c :: rest) then some 0
    else (findIdxCI pat rest).map (· + 1)

/-- String version of `pyReplace`. -/
def pyReplaceS (s old new : String) : String :=
  ⟨pyReplace old.data new.data s.data⟩

def pyStripS (s : String) : String := ⟨pyStrip s.data⟩

def lowerS (s : String) : String := ⟨lowerList s.data⟩

/-! ## `topmate_client.parse_user_identifiers`

```python
items = [item.strip() for item in input_str.replace("\n", ",").split(",") if item.strip()]
for item in items:
    if item.isdigit(): user_ids.append(int(item))
    else:             usernames.append(item)
```
(user ids are numerals, hence modelled as `Nat`). -/

/-- The cleaned-up token list of an identifier input string. -/
def identifierItems (input : String) : List (List Char) :=
  ((splitOnChar ',' (input.data.map fun c => if c = '\n' then ',' else c) []).map
      pyStrip).filter (fun l => !l.isEmpty)

def parse_user_identifiers (input : String) : List String × List Nat :=
  let items := identifierItems input
  ((items.filter (fun l => !pyIsDigit l)).map fun l => ⟨l⟩,
   (items.filter (fun l => pyIsDigit l)).map digitsToNat)

/-! ## `job_manager.create_job` (submission path, claim C8)

The observable effects of `JobManager.create_job` up to the point where the
job is handed to the queue.  The `ValueError` for an empty identifier list
is raised *before* `database_service.create_batch_job`, so the error path
performs no writes. -/

inductive JobEffect
  | createBatchJob (total : Nat)
  | addLog (level msg : String)
  | publishJob
  | updateStatus (status : String)
  | spawnSyncProcessing
  deriving Repr, DecidableEq

/-- `create_job` reduced to its decision structure: parse, reject empty,
create the DB row, publish, then either mark queued or fall back to
synchronous processing. Returns the total and the ordered effect list. -/
def create_job (user_identifiers : String) (published : Bool) :
    Except String (Nat × List JobEffect) :=
  let (usernames, user_ids) := parse_user_identifiers user_identifiers
  let total_items := usernames.length + user_ids.length
  if total_items = 0 then
    .error "No valid user identifiers provided"
  else
    .ok (total_items,
      [JobEffect.createBatchJob total_items,
       JobEffect.addLog "INFO" "Job created",
       JobEffect.publishJob] ++
      (if published then
        [JobEffect.updateStatus "queued", JobEffect.addLog "INFO" "Job queued for processing"]
      else
        [JobEffect.spawnSyncProcessing]))

/-- Spec-side definition (for C8): deduplication preserving the first
occurrence, written against the spec's words, to be compared with the
source's behaviour. -/
def dedupFirstAux [DecidableEq α] : List α → List α → List α
  | [], _ => []
  | x :: xs, seen =>
    if x ∈ seen then dedupFirstAux xs seen else x :: dedupFirstAux xs (x :: seen)

def dedupFirst [DecidableEq α] (l : List α) : List α := dedupFirstAux l []

/-! ## `database.update_job_status` and the job row (claim C10)

The `batch_jobs` row, with the columns touched (or deliberately not
touched) by `DatabaseService.update_job_status`.  Timestamps are abstract
instants (`CURRENT_TIMESTAMP` is the `now` parameter). -/

structure JobRow where
  job_id : String
  campaign_name : String
  status : String
  total_items : Nat
  processed_items : Nat
  success_count : Nat
  failure_count : Nat
  error_message : Option String
  template_html : String
  user_identifiers : Option String
  created_at : Nat
  started_at : Option Nat
  completed_at : Option Nat
  deriving Repr, DecidableEq

/-- `DatabaseService.update_job_status`: `status` is always written;
`started_at := CURRENT_TIMESTAMP` when the new status is `processing`,
`completed_at := CURRENT_TIMESTAMP` when it is `completed` or `failed`;
each optional argument is written only when it is not `None`. -/
def update_job_status (row : JobRow) (now : Nat) (status : String)
    (processed_items success_count failure_count : Option Nat)
    (error_message : Option String) : JobRow :=
  { row with
    status := status
    started_at := if status = "processing" then some now else row.started_at
    completed_at :=
      if status = "completed" ∨ status = "failed" then some now else row.completed_at
    processed_items := processed_items.getD row.processed_items
    success_count := success_count.getD row.success_count
    failure_count := failure_count.getD row.failure_count
    error_message :=
      match error_message with
      | some m => some m
      | none => row.error_message }

/-! ## Worker trace model

Observable actions of `JobManager._process_job` that the claims talk
about: counter-carrying database writes, progress events, per-item
completion events and the terminal events.  (Log lines and the mirrored
RedPanda publications carry no counters and are elided.) -/

structure Counters where
  processed : Nat
  success : Nat
  failure : Nat
  deriving Repr, DecidableEq

inductive Step
  | dbStatusOnly (status : String)
  | dbCounters (status : String) (c : Counters)
  | progress (c : Counters) (total : Nat)
  | posterCompleted (ident url : String) (success : Bool)
  | jobCompleted (success failure : Nat)
  | jobFailed (error : String)
  deriving Repr, DecidableEq

/-! ## `job_manager.cancel_job` and the cancel endpoint (claim C9)

```python
async def cancel_job(self, job_id: str) -> bool:
    if job_id in self._active_jobs:
        self._active_jobs[job_id].cancel()
        await database_service.update_job_status(job_id, "cancelled")
        await sse_manager.send_job_failed(job_id, "Job cancelled by user")
        return True
    return False
```
`_active_jobs` only contains jobs currently being consumed by this
process, so a `pending`/`queued` job is never in it. -/

def cancel_job (activeJobs : List String) (jid : String) (job : JobRow) (now : Nat) :
    Bool × JobRow × List Step :=
  if jid ∈ activeJobs then
    (true, update_job_status job now "cancelled" none none none none,
     [Step.jobFailed "Job cancelled by user"])
  else
    (false, job, [])

structure CancelResponse where
  httpStatus : Nat
  success : Option Bool
  message : Option String
  deriving Repr, DecidableEq

/-- The `/batch/jobs/{job_id}/cancel` endpoint
(`routers/batch_processing.cancel_job`): 404 when the job does not exist,
400 when it is not in an active state, otherwise delegate to
`JobManager.cancel_job` and report its boolean. -/
def cancel_endpoint (activeJobs : List String) (jid : String)
    (job? : Option JobRow) (now : Nat) :
    CancelResponse × Option JobRow × List Step :=
  match job? with
  | none => (⟨404, none, some "Job not found"⟩, none, [])
  | some job =>
    if job.status = "pending" ∨ job.status = "queued" ∨ job.status = "processing" then
      let r := cancel_job activeJobs jid job now
      (⟨200, some r.1, some (if r.1 then "Job cancelled" else "Failed to cancel job")⟩,
       some r.2.1, r.2.2)
    else
      (⟨400, none, some "Job cannot be cancelled"⟩, some job, [])

/-! ## `job_manager._process_job` (claims C1, C4, C5, C7)

The identifier-mode worker.  The external collaborators are abstracted as
deterministic oracles:

* `fetch : String → Except String Profile` — the Topmate profile fetch
  (`fetch_topmate_profile` / `fetch_profile_by_user_id`), keyed by the
  identifier rendered as a string;
* `gen : String → ItemOutcome` — the outcome of the per-item pipeline
  `_generate_single_poster` *after* the control point reached: whether the
  item's `generated_posters` row got created, and whether the remainder of
  the pipeline (fill → rasterize → overlay → upload → status update)
  succeeded or raised.

Per-item tasks in a batch run under `asyncio.gather`; their side effects
are modelled sequentially, which preserves the per-item row contents, the
counter arithmetic of the result loop (which *is* sequential in the
source) and the set of emitted events. -/

structure Profile where
  username : Option String
  deriving Repr, DecidableEq

inductive ItemOutcome
  /-- the whole pipeline succeeds; carries the value stored in
  `poster_url` and the processing time. -/
  | ok (url : String) (ms : Nat)
  /-- an exception is raised after `create_poster_record` (placeholder
  fill, HTML→PNG conversion, overlay, upload, or the status update). -/
  | failAfterRecord (msg : String)
  /-- an exception is raised before the row exists
  (`create_poster_record` itself fails). -/
  | failBeforeRecord (msg : String)
  deriving Repr, DecidableEq

/-- A `generated_posters` row.  `id` is the serial primary key
(`RETURNING id` of `create_poster_record`), modelled as the row's
insertion rank. -/
structure PosterRow where
  id : Nat
  job_id : String
  user_identifier : String
  username : String
  status : String
  poster_url : Option String
  processing_time_ms : Option Nat
  deriving Repr, DecidableEq

structure DbState where
  job : JobRow
  posters : List PosterRow
  deriving Repr, DecidableEq

/-- A `requests` envelope as published by `create_job` and consumed by
`_handle_job_message` (job_type `"html"`). -/
structure Envelope where
  job_id : String
  usernames : List String
  user_ids : List Nat
  html_template : String
  width : Nat
  height : Nat
  topmate_logo : Option String
  skip_overlays : Bool
  deriving Repr, DecidableEq

/-- The ordered identifier list the worker iterates over (usernames first,
then user ids, exactly as the two `for` loops in `_process_job`). -/
def Envelope.idents (env : Envelope) : List String :=
  env.usernames ++ env.user_ids.map (fun n => toString n)

def Envelope.total (env : Envelope) : Nat :=
  env.usernames.length + env.user_ids.length

/-- `JobManager._generate_single_poster`, reduced to its effect on the
`generated_posters` table: a `pending` row is inserted first; on success
the same row is updated to `completed` with its URL and timing; on a
failure after the insert the function re-raises *without updating the
row*, leaving it `pending`. -/
def generate_single_poster (jobId ident : String) (profile : Profile)
    (gen : String → ItemOutcome) (posters : List PosterRow) :
    List PosterRow × Except String String :=
  let username := profile.username.getD ident
  let pendingRow : PosterRow :=
    { id := posters.length, job_id := jobId, user_identifier := ident,
      username := username, status := "pending", poster_url := none,
      processing_time_ms := none }
  match gen ident with
  | .ok url ms =>
    (posters ++ [{ pendingRow with
        status := "completed", poster_url := some url,
        processing_time_ms := some ms }],
     .ok url)
  | .failAfterRecord msg => (posters ++ [pendingRow], .error msg)
  | .failBeforeRecord msg => (posters, .error msg)

/-- The profile-fetch phase: each fetch failure counts as a processed
failure and emits a progress event; successes accumulate the profile
list handed to the batch loop. -/
def fetchPhase (total : Nat) (fetch : String → Except String Profile) :
    List String → Counters → Counters × List (String × Profile) × List Step
  | [], c => (c, [], [])
  | i :: rest, c =>
    match fetch i with
    | .ok p =>
      let r := fetchPhase total fetch rest c
      (r.1, (i, p) :: r.2.1, r.2.2)
    | .error _ =>
      let c' : Counters := ⟨c.processed + 1, c.success, c.failure + 1⟩
      let r := fetchPhase total fetch rest c'
      (r.1, r.2.1, Step.progress c' total :: r.2.2)

/-- One batch of the poster loop: run the per-item pipeline, then the
result loop bumps the counters and emits `poster_completed` and
`progress` per item. -/
def runBatch (jobId : String) (total : Nat) (gen : String → ItemOutcome) :
    List (String × Profile) → Counters → List PosterRow →
    Counters × List PosterRow × List Step
  | [], c, posters => (c, posters, [])
  | (ident, profile) :: rest, c, posters =>
    let g := generate_single_poster jobId ident profile gen posters
    match g.2 with
    | .ok url =>
      let c' : Counters := ⟨c.processed + 1, c.success + 1, c.failure⟩
      let r := runBatch jobId total gen rest c' g.1
      (r.1, r.2.1,
       Step.posterCompleted ident url true :: Step.progress c' total :: r.2.2)
    | .error _ =>
      let c' : Counters := ⟨c.processed + 1, c.success, c.failure + 1⟩
      let r := runBatch jobId total gen rest c' g.1
      (r.1, r.2.1,
       Step.posterCompleted ident "" false :: Step.progress c' total :: r.2.2)

/-- `BATCH_SIZE = 8`. -/
def BATCH_SIZE : Nat := 8

/-- `range(0, len(profiles), 8)` chunking, by fuel (the fuel is the list
length, so the recursion is structural and computable). -/
def chunksAux : Nat → List α → List (List α)
  | 0, _ => []
  | _ + 1, [] => []
  | fuel + 1, x :: xs =>
    (x :: xs).take BATCH_SIZE :: chunksAux fuel ((x :: xs).drop BATCH_SIZE)

def chunks (l : List α) : List (List α) := chunksAux l.length l

/-- The batch loop: after each batch the job row is updated with the
running counters (`update_job_status(..., "processing", processed,
success, failure)`). -/
def batchPhase (jobId : String) (total : Nat) (gen : String → ItemOutcome) :
    List (List (String × Profile)) → Counters → List PosterRow →
    Counters × List PosterRow × List Step
  | [], c, posters => (c, posters, [])
  | batch :: rest, c, posters =>
    let b := runBatch jobId total gen batch c posters
    let r := batchPhase jobId total gen rest b.1 b.2.1
    (r.1, r.2.1, b.2.2 ++ Step.dbCounters "processing" b.1 :: r.2.2)

/-- `JobManager._process_job` on the happy control path (no
envelope-level exception: per-item and per-fetch failures are caught
inside the loops, exactly as in the source).  Returns the final database
state and the ordered step trace. -/
def process_job (env : Envelope) (fetch : String → Except String Profile)
    (gen : String → ItemOutcome) (db : DbState) (now : Nat) :
    DbState × List Step :=
  let job1 := update_job_status db.job now "processing" none none none none
  let total := env.total
  let f := fetchPhase total fetch env.idents ⟨0, 0, 0⟩
  let b := batchPhase env.job_id total gen (chunks f.2.1) f.1 db.posters
  let job2 := update_job_status job1 now "completed"
      (some b.1.processed) (some b.1.success) (some b.1.failure) none
  ({ job := job2, posters := b.2.1 },
   Step.dbStatusOnly "processing" :: f.2.2 ++ b.2.2 ++
     [Step.dbCounters "completed" b.1, Step.jobCompleted b.1.success b.1.failure])

/-- Consuming the same `requests` envelope `n` times in a row
(`_handle_job_message` performs no deduplication and no terminal-state
check before spawning `_process_job`). -/
def consumeN (env : Envelope) (fetch : String → Except String Profile)
    (gen : String → ItemOutcome) (now : Nat) : Nat → DbState → DbState
  | 0, db => db
  | n + 1, db => consumeN env fetch gen now n (process_job env fetch gen db now).1

/-! ## Trace observations -/

/-- The counter snapshots carried by the trace: progress events and
counter-carrying job-row writes, in emission order. -/
def snapshots (steps : List Step) : List Counters :=
  steps.filterMap fun s =>
    match s with
    | .progress c _ => some c
    | .dbCounters _ c => some c
    | _ => none

/-- The `processed` values of the snapshots, in order. -/
def processedSeq (steps : List Step) : List Nat :=
  (snapshots steps).map Counters.processed

/-- Decidable monotone non-decreasing check. -/
def monoBool : List Nat → Bool
  | [] => true
  | [_] => true
  | a :: b :: r => decide (a ≤ b) && monoBool (b :: r)

/-- Decidable check that every snapshot satisfies
`processed = success + failure` and `processed ≤ total`. -/
def countersOKBool (total : Nat) (steps : List Step) : Bool :=
  (snapshots steps).all fun x =>
    (x.processed == x.success + x.failure) && decide (x.processed ≤ total)

/-- Count of `poster_completed` events with `success = false`. -/
def pcFalseCount (steps : List Step) : Nat :=
  steps.countP fun s =>
    match s with
    | .posterCompleted _ _ false => true
    | _ => false

/-- The `job_failed` events of a trace. -/
def jobFailedSteps (steps : List Step) : List Step :=
  steps.filter fun s =>
    match s with
    | .jobFailed _ => true
    | _ => false

/-- Number of identifiers whose profile fetch fails. -/
def fetchFailures (fetch : String → Except String Profile) (idents : List String) : Nat :=
  idents.countP fun i =>
    match fetch i with
    | .error _ => true
    | .ok _ => false

/-- The (identifier, profile) pairs that survive the fetch phase, in order. -/
def profilesOf (fetch : String → Except String Profile) (idents : List String) :
    List (String × Profile) :=
  idents.filterMap fun i =>
    match fetch i with
    | .ok p => some (i, p)
    | .error _ => none

/-- Number of items whose per-item pipeline raises. -/
def genFailures (gen : String → ItemOutcome) (items : List (String × Profile)) : Nat :=
  items.countP fun ip =>
    match gen ip.1 with
    | .ok _ _ => false
    | _ => true

/-- Number of items whose `generated_posters` row gets created (everything
except a failure of `create_poster_record` itself). -/
def recordedCount (gen : String → ItemOutcome) (items : List (String × Profile)) : Nat :=
  items.countP fun ip =>
    match gen ip.1 with
    | .failBeforeRecord _ => false
    | _ => true

/-- The `generated_posters` rows a run of the pipeline appends for a list
of items, with row ids starting at `base`. -/
def itemRows (jobId : String) (gen : String → ItemOutcome) :
    Nat → List (String × Profile) → List PosterRow
  | _, [] => []
  | base, (ident, profile) :: rest =>
    let username := profile.username.getD ident
    match gen ident with
    | .ok url ms =>
      { id := base, job_id := jobId, user_identifier := ident, username := username,
        status := "completed", poster_url := some url, processing_time_ms := some ms } ::
        itemRows jobId gen (base + 1) rest
    | .failAfterRecord _ =>
      { id := base, job_id := jobId, user_identifier := ident, username := username,
        status := "pending", poster_url := none, processing_time_ms := none } ::
        itemRows jobId gen (base + 1) rest
    | .failBeforeRecord _ => itemRows jobId gen base rest

/-- All snapshots of a step list are consistent (`processed = success +
failure`), lie in the window `[lo, hi]`, and their `processed` values are
pairwise monotone. -/
def SnapOK (lo hi : Nat) (steps : List Step) : Prop :=
  (∀ x ∈ snapshots steps,
      x.processed = x.success + x.failure ∧ lo ≤ x.processed ∧ x.processed ≤ hi) ∧
  List.Pairwise (· ≤ ·) (processedSeq steps)

/-! ## `image_processor.replace_placeholders` (claim C2)

Row values are Python objects: strings, or nested dicts (a dict value is
only ever stringified via `str(...)`, rendered with Python's repr). -/

inductive Pv
  | s (v : String)
  | d (entries : List (String × Pv))

mutual

/-- Python `repr` of a value (as used inside `str(dict)`). -/
def pvRepr : Pv → String
  | .s v => "'" ++ v ++ "'"
  | .d es => "\x7b" ++ pvReprEntries es ++ "\x7d"

def pvReprEntries : List (String × Pv) → String
  | [] => ""
  | [(k, v)] => "'" ++ k ++ "': " ++ pvRepr v
  | (k, v) :: e :: rest => "'" ++ k ++ "': " ++ pvRepr v ++ ", " ++ pvReprEntries (e :: rest)

end

/-- Python `str(...)`. -/
def pvStr : Pv → String
  | .s v => v
  | .d es => pvRepr (.d es)

/-- Python `data.get(col, "")` on a dict (modelled as an association list
with distinct keys). -/
def pyGet (data : List (String × Pv)) (k : String) : Option Pv :=
  (data.find? fun e => e.1 = k).map (·.2)

/-- Word-boundary check after `<script` (`\b`: next char is not a word
character). -/
def scriptBoundary (l : List Char) : Bool :=
  match l.drop 7 with
  | [] => true
  | d :: _ => !(d.isAlphanum || d = '_')

/-- `re.sub(r'<script\b[^<]*(?:(?!<\/script>)<[^<]*)*<\/script>', '', result,
flags=re.IGNORECASE)`: each `<script`-to-first-`</script>` region is
deleted; an unclosed `<script` does not match and is kept.  The fuel is
the string length (each step consumes at least one character). -/
def stripScriptsAux : Nat → List Char → List Char
  | 0, l => l
  | _ + 1, [] => []
  | fuel + 1, c :: rest =>
    if isPrefixCI "<script".data (c :: rest) && scriptBoundary (c :: rest) then
      match findIdxCI "</script>".data (c :: rest) with
      | some j => stripScriptsAux fuel ((c :: rest).drop (j + 9))
      | none => c :: stripScriptsAux fuel rest
    else c :: stripScriptsAux fuel rest

def stripScripts (s : String) : String := ⟨stripScriptsAux s.data.length s.data⟩

/-- After an `id=` (optionally quoted) does `profilePic` follow
(case-insensitively, the pattern `id=["\x27]?profilePic["\x27]?`)? -/
def idMatchesAt (name : List Char) (l : List Char) : Bool :=
  if isPrefixCI "id=".data l then
    let l1 := l.drop 3
    let l2 := if l1.head? = some '"' || l1.head? = some '\'' then l1.drop 1 else l1
    isPrefixCI name l2
  else false

/-- Does the (img/div) tag body contain `id=["\x27]?<name>["\x27]?`? -/
def containsIdPat (name : List Char) : List Char → Bool
  | [] => false
  | c :: rest => idMatchesAt name (c :: rest) || containsIdPat name rest

/-- Length of the `id=["\x27]?<name>["\x27]?` pattern when it matches at
the head of `l` (the optional quotes are consumed greedily). -/
def idMatchLenAt (name : List Char) (l : List Char) : Option Nat :=
  if isPrefixCI "id=".data l then
    let l1 := l.drop 3
    let q1 := if l1.head? = some '"' || l1.head? = some '\'' then 1 else 0
    let l2 := l1.drop q1
    if isPrefixCI name l2 then
      let l3 := l2.drop name.length
      let q2 := if l3.head? = some '"' || l3.head? = some '\'' then 1 else 0
      some (3 + q1 + name.length + q2)
    else none
  else none

/-- Position just past the first `id=["\x27]?<name>["\x27]?` occurrence
in `l`, if any. -/
def firstIdEnd (name : List Char) : List Char → Option Nat
  | [] => none
  | c :: rest =>
    match idMatchLenAt name (c :: rest) with
    | some len => some len
    | none => (firstIdEnd name rest).map (· + 1)

/-- Does a style-attribute body contain `display\s*:\s*none`
(case-insensitively)? -/
def containsDisplayNoneAt : List Char → Bool
  | l =>
    if isPrefixCI "display".data l then
      let l1 := (l.drop 7).dropWhile Char.isWhitespace
      match l1 with
      | ':' :: l2 => isPrefixCI "none".data (l2.dropWhile Char.isWhitespace)
      | _ => false
    else false

def containsDisplayNone : List Char → Bool
  | [] => false
  | c :: rest => containsDisplayNoneAt (c :: rest) || containsDisplayNone rest

/-- Match `style=["\x27][^"\x27]*display\s*:\s*none[^"\x27]*["\x27]`
starting at the head of `l`; returns the match length. -/
def styleAttrMatchAt (l : List Char) : Option Nat :=
  if isPrefixCI "style=".data l then
    let l1 := l.drop 6
    match l1 with
    | q :: l2 =>
      if q = '"' || q = '\'' then
        let body := l2.takeWhile fun c => c ≠ '"' && c ≠ '\''
        let l3 := l2.drop body.length
        match l3 with
        | q2 :: _ =>
          if (q2 = '"' || q2 = '\'') && containsDisplayNone body then
            some (6 + 1 + body.length + 1)
          else none
        | [] => none
      else none
    | [] => none
  else none

/-- All (position, length) matches of the style-display-none attribute in
`l`; the regex's greedy first group selects the last one. -/
def styleAttrMatches : List Char → List (Nat × Nat)
  | [] => []
  | c :: rest =>
    match styleAttrMatchAt (c :: rest) with
    | some len => (0, len) :: (styleAttrMatches rest).map (fun p => (p.1 + 1, p.2))
    | none => (styleAttrMatches rest).map (fun p => (p.1 + 1, p.2))

/-- `re.sub(r'(<img[^>]*id=["\x27]?profilePic["\x27]?[^>]*)(style=["\x27]
[^"\x27]*display\s*:\s*none[^"\x27]*["\x27])', r'\1style=""', result,
flags=re.IGNORECASE)`: inside each `<img` tag carrying `id=profilePic`,
the style attribute must lie *after* the id pattern (it is part of the
regex's second group, which follows the id inside the first group), and
the greedy `[^>]*` selects the last such `style="...display:none..."`
attribute; it is replaced by `style=""`.  A style attribute that precedes
every id occurrence is left untouched, as in the source. -/
def showProfilePicAux : Nat → List Char → List Char
  | 0, l => l
  | _ + 1, [] => []
  | fuel + 1, c :: rest =>
    if isPrefixCI "<img".data (c :: rest) then
      let inside := (c :: rest).takeWhile (· ≠ '>')
      let after := (c :: rest).drop inside.length
      let inside' :=
        match firstIdEnd "profilePic".data inside with
        | some idEnd =>
          match ((styleAttrMatches inside).filter fun p => idEnd ≤ p.1).getLast? with
          | some (st, len) =>
            inside.take st ++ ("style=".data ++ ['"', '"']) ++ inside.drop (st + len)
          | none => inside
        | none => inside
      inside' ++ showProfilePicAux fuel after
    else c :: showProfilePicAux fuel rest

def showProfilePic (s : String) : String := ⟨showProfilePicAux s.data.length s.data⟩

/-- `re.sub(r'(<div[^>]*id=["\x27]?placeholder["\x27]?[^>]*)(>)',
r'\1 style="display: none;">', result, flags=re.IGNORECASE)`: each
`<div` tag carrying `id=placeholder` gets
` style="display: none;"` inserted before its closing `>`. -/
def hidePlaceholderAux : Nat → List Char → List Char
  | 0, l => l
  | _ + 1, [] => []
  | fuel + 1, c :: rest =>
    if isPrefixCI "<div".data (c :: rest) then
      let inside := (c :: rest).takeWhile (· ≠ '>')
      let after := (c :: rest).drop inside.length
      match after with
      | '>' :: after' =>
        if containsIdPat "placeholder".data inside then
          inside ++ (" style=".data ++ ['"'] ++ "display: none;".data ++ ['"', '>'])
            ++ hidePlaceholderAux fuel after'
        else inside ++ '>' :: hidePlaceholderAux fuel after'
      | _ => inside ++ hidePlaceholderAux fuel after
    else c :: hidePlaceholderAux fuel rest

def hidePlaceholder (s : String) : String := ⟨hidePlaceholderAux s.data.length s.data⟩

/-- The special image columns of `replace_placeholders`. -/
def imageCols : List String :=
  ["profile_pic", "profile_picture", "avatar", "image", "photo"]

/-- `str(data.get(col, ""))`: the flat row value a column is replaced
with. -/
def flatValue (data : List (String × Pv)) (c : String) : String :=
  match pyGet data c with
  | some v => pvStr v
  | none => ""

/-- One iteration of the `for col in columns` loop of
`image_processor.replace_placeholders`. -/
def fillColumn (data : List (String × Pv)) (result : String) (col : String) : String :=
  let value := flatValue data col
  let r1 := pyReplaceS result ("\x7b" ++ col ++ "\x7d") value
  if lowerS col ∈ imageCols then
    if value ≠ "" ∧ pyStripS value ≠ "" then
      hidePlaceholder (showProfilePic r1)
    else r1
  else r1

/-- `image_processor.replace_placeholders(html, data, columns)`: replace
`{col}` for each col in `columns` by `str(data.get(col, ""))`, apply the
image-column show/hide rewrites, then strip `<script>` elements. -/
def replace_placeholders (html : String) (data : List (String × Pv))
    (columns : List String) : String :=
  stripScripts (columns.foldl (fillColumn data) html)

/-! ### Template presentation for the row-mode fill claim

An HTML template is presented as an alternation of literal segments and
`{name}` tokens; the universal fill theorem is quantified over this
family. -/

/-- `s` contains neither `\x7b` nor `\x7d`. -/
def braceFreeB (s : String) : Bool :=
  decide ('\x7b' ∉ s.data) && decide ('\x7d' ∉ s.data)

/-- `s` contains no `<`, not even after lowering. -/
def ltFree (s : String) : Bool := s.data.all fun c => !(charLower c == '<')

/-- A template segment: a literal piece or a `{name}` token. -/
inductive Tseg
  | lit (s : String)
  | tok (name : String)
  deriving Repr, DecidableEq

/-- Both literal segments and token names are brace-free. -/
def segBraceFree : Tseg → Bool
  | .lit s => braceFreeB s
  | .tok t => braceFreeB t

/-- Every token of the segment names a listed column. -/
def tokenListed (columns : List String) : Tseg → Bool
  | .lit _ => true
  | .tok t => decide (t ∈ columns)

/-- Characters of the rendered template. -/
def renderL : List Tseg → List Char
  | [] => []
  | .lit s :: rest => s.data ++ renderL rest
  | .tok t :: rest => '\x7b' :: (t.data ++ '\x7d' :: renderL rest)

/-- The rendered template string: literals interleaved with `{name}`
tokens. -/
def renderT (segs : List Tseg) : String := ⟨renderL segs⟩

/-- Substitute one column: the token `{c}` becomes the literal `v`,
everything else is unchanged. -/
def substOne (c v : String) : Tseg → Tseg
  | .lit s => .lit s
  | .tok t => if t = c then .lit v else .tok t

/-- Substitute all listed columns by their flat row values; unlisted
tokens stay tokens. -/
def substSeg (data : List (String × Pv)) (columns : List String) : Tseg → Tseg
  | .lit s => .lit s
  | .tok t => if t ∈ columns then .lit (flatValue data t) else .tok t

/-! ## `template_service.extract_placeholders` (token read-back)

`re.findall(r'\{([a-zA-Z_][a-zA-Z0-9_.]*)\}', html)` deduplicated
(`list(set(...))`; the set order is irrelevant, first-occurrence order is
used here). -/

def isNameStart (c : Char) : Bool := c.isAlpha || c = '_'

def isNameChar (c : Char) : Bool := c.isAlphanum || c = '_' || c = '.'

def findTokensAux : Nat → List Char → List String
  | 0, _ => []
  | _ + 1, [] => []
  | fuel + 1, c :: rest =>
    if c = '\x7b' then
      match rest with
      | [] => []
      | d :: _ =>
        if isNameStart d then
          let name := rest.takeWhile isNameChar
          match rest.drop name.length with
          | e :: tail =>
            if e = '\x7d' then (⟨name⟩ : String) :: findTokensAux fuel tail
            else findTokensAux fuel rest
          | [] => findTokensAux fuel rest
        else findTokensAux fuel rest
    else findTokensAux fuel rest

def extract_placeholders (html : String) : List String :=
  dedupFirst (findTokensAux html.data.length html.data)

/-! ## `html_to_image.HTMLToImageConverter.html_to_png` (claim C3)

The viewport/clip computation of `html_to_png`: a template that declares
its own document (`<!doctype` or `<html` opener after strip/lower) may
have its dimensions *overridden* by values extracted from its CSS; a bare
fragment is wrapped and keeps the requested dimensions. -/

def isCompleteHtml (html : String) : Bool :=
  let l := lowerList (pyStrip html.data)
  "<!doctype".data.isPrefixOf l || "<html".data.isPrefixOf l

/-- Match `\s*(\d+)px` at the head of `l` (`px` case-insensitive iff
`ci`); returns the captured number. -/
def matchNumPx (ci : Bool) (l : List Char) : Option Nat :=
  let l1 := l.dropWhile Char.isWhitespace
  let ds := l1.takeWhile Char.isDigit
  if ds.isEmpty then none
  else
    let l2 := l1.drop ds.length
    if (if ci then isPrefixCI "px".data l2 else "px".data.isPrefixOf l2) then
      some (digitsToNat ds)
    else none

/-- All captures of `key:\s*(\d+)px` in `l`, scanning left to right
(case-insensitive when `ci`). -/
def dimMatches (ci : Bool) (key : List Char) : List Char → List Nat
  | [] => []
  | c :: rest =>
    let here :=
      if (if ci then isPrefixCI (key ++ [':']) (c :: rest)
          else (key ++ [':']).isPrefixOf (c :: rest)) then
        matchNumPx ci ((c :: rest).drop (key.length + 1))
      else none
    match here with
    | some n => n :: dimMatches ci key rest
    | none => dimMatches ci key rest

/-- `re.search(r'\.poster-container[^}]*KEY:\s*(\d+)px', html,
re.IGNORECASE | re.DOTALL)`: leftmost `.poster-container` occurrence
whose following `}`-free span contains a `KEY: Npx`; the greedy `[^}]*`
makes the capture the last such match in the span. -/
def posterContainerDim (key : List Char) : List Char → Option Nat
  | [] => none
  | c :: rest =>
    if isPrefixCI ".poster-container".data (c :: rest) then
      let after := (c :: rest).drop ".poster-container".length
      let span := after.takeWhile (· ≠ '\x7d')
      match (dimMatches true key span).getLast? with
      | some n => some n
      | none => posterContainerDim key rest
    else posterContainerDim key rest

/-- `re.search(r'KEY:\s*(\d+)px', html)` (case-sensitive, first match). -/
def firstDim (key : List Char) : List Char → Option Nat
  | [] => none
  | c :: rest =>
    if (key ++ [':']).isPrefixOf (c :: rest) then
      match matchNumPx false ((c :: rest).drop (key.length + 1)) with
      | some n => some n
      | none => firstDim key rest
    else firstDim key rest

structure RenderPlan where
  viewport_width : Nat
  viewport_height : Nat
  clip_width : Nat
  clip_height : Nat
  wrapped : Bool
  deriving Repr, DecidableEq

/-- The dimension selection and screenshot geometry of `html_to_png`. -/
def html_to_png_plan (html : String) (width height : Nat) : RenderPlan :=
  let complete := isCompleteHtml html
  let dims :=
    if complete then
      match posterContainerDim "width".data html.data,
            posterContainerDim "height".data html.data with
      | some w, some h => (w, h)
      | _, _ =>
        match firstDim "width".data html.data, firstDim "height".data html.data with
        | some w, some h =>
          if 500 ≤ w ∧ 500 ≤ h then (w, h) else (width, height)
        | _, _ => (width, height)
    else (width, height)
  { viewport_width := dims.1, viewport_height := dims.2,
    clip_width := dims.1, clip_height := dims.2, wrapped := !complete }

/-! ## `storage_service` and the upload call site (claim C6)

```python
async def upload_image(image_bytes: bytes = None, data_url: str = None,
                       filename: str = None) -> Dict[str, str]: ...
```
while `job_manager._generate_single_poster` calls
`upload_image(image_data_url, f"{job_id}/{username}_{int(time.time())}.png")`
with both arguments *positional*: the PNG payload binds to `image_bytes`,
the storage key binds to `data_url`, and `filename` stays `None`. -/

def b64Table : List Char :=
  "ABCDEFGHIJKLMNOPQRSTUVWXYZabcdefghijklmnopqrstuvwxyz0123456789+/".data

def b64CharAt (n : Nat) : Char := b64Table.getD n '='

/-- Standard base64 of a byte sequence (bytes as `Nat` values < 256). -/
def base64Encode : List Nat → List Char
  | [] => []
  | [a] => [b64CharAt (a / 4), b64CharAt (a % 4 * 16), '=', '=']
  | [a, b] => [b64CharAt (a / 4), b64CharAt (a % 4 * 16 + b / 16),
               b64CharAt (b % 16 * 4), '=']
  | a :: b :: d :: rest =>
    b64CharAt (a / 4) :: b64CharAt (a % 4 * 16 + b / 16)
      :: b64CharAt (b % 16 * 4 + d / 64) :: b64CharAt (d % 64)
      :: base64Encode rest

def base64EncodeS (bytes : List Nat) : String := ⟨base64Encode bytes⟩

def b64Val (c : Char) : Nat := (b64Table.findIdx? (· = c)).getD 0

/-- Base64 decoding (padding-aware; invalid input is treated leniently —
the source call sites only ever feed well-formed data URLs). -/
def base64Decode : List Char → List Nat
  | c1 :: c2 :: c3 :: c4 :: rest =>
    let v1 := b64Val c1
    let v2 := b64Val c2
    let v3 := b64Val c3
    let v4 := b64Val c4
    if c3 = '=' then [v1 * 4 + v2 / 16]
    else if c4 = '=' then [v1 * 4 + v2 / 16, v2 % 16 * 16 + v3 / 4]
    else (v1 * 4 + v2 / 16) :: (v2 % 16 * 16 + v3 / 4) :: (v3 % 4 * 64 + v4)
      :: base64Decode rest
  | _ => []

/-- `storage_service.data_url_to_bytes`: `data_url.split(",", 1)[1]`
base64-decoded. -/
def data_url_to_bytes (du : String) : List Nat :=
  base64Decode ((du.data.dropWhile (· ≠ ',')).drop 1)

structure UploadResult where
  url : String
  key : Option String
  deriving Repr, DecidableEq

/-- `storage_service.upload_to_s3`: rejects when S3 is unconfigured, then
`put_object(Bucket=..., Key=filename, Body=..., ContentType="image/png")`
and returns `{s3_base_url}/{filename}`.  `boto3` rejects `Key=None` with a
parameter-validation error (modelled as the error branch). -/
def upload_to_s3 (s3conf : Bool) (s3Base : String) (_fileContent : List Nat)
    (filename : Option String) : Except String String :=
  if !s3conf then .error "S3 is not configured"
  else
    match filename with
    | none => .error "Parameter validation failed: invalid Key None"
    | some f => .ok (s3Base ++ "/" ++ f)

/-- `storage_service.upload_image(image_bytes, data_url, filename)`. -/
def upload_image (s3conf : Bool) (s3Base : String) (image_bytes : Option (List Nat))
    (data_url : Option String) (filename : Option String) :
    Except String UploadResult :=
  let bytes? : Except String (List Nat) :=
    match image_bytes with
    | some b => .ok b
    | none =>
      match data_url with
      | none => .error "Either image_bytes or data_url must be provided"
      | some du => .ok (data_url_to_bytes du)
  match bytes? with
  | .error e => .error e
  | .ok bytes =>
    if s3conf then
      (upload_to_s3 s3conf s3Base bytes filename).map fun u => ⟨u, filename⟩
    else
      .ok ⟨"data:image/png;base64," ++ base64EncodeS bytes, filename⟩

/-- The upload call exactly as `_generate_single_poster` writes it:
`upload_image(image_data_url, f"{job_id}/{username}_{int(time.time())}.png")`
— both arguments positional, so the PNG lands in `image_bytes`, the
storage key lands in `data_url`, and `filename` is `None`. -/
def generate_poster_upload (s3conf : Bool) (s3Base : String) (png : List Nat)
    (jobId username : String) (unixTime : Nat) : Except String UploadResult :=
  upload_image s3conf s3Base (some png)
    (some (jobId ++ "/" ++ username ++ "_" ++ toString unixTime ++ ".png")) none

/-! ## Concrete fixtures used by counterexamples and witnesses -/

/-- The job total reported by `create_job`, when it succeeds. -/
def jobTotal : Except String (Nat × List JobEffect) → Option Nat
  | .ok (t, _) => some t
  | .error _ => none

/-- A one-identifier envelope. -/
def env0 : Envelope :=
  ⟨"job_1", ["ada"], [], "<h1>Hello \x7bname\x7d</h1>", 100, 50, none, true⟩

/-- The freshly queued database state for `env0`'s job. -/
def db0 : DbState :=
  ⟨⟨"job_1", "camp", "queued", 1, 0, 0, 0, none, "<h1>Hello \x7bname\x7d</h1>",
    some "ada", 0, none, none⟩, []⟩

/-- Profile fetch always succeeds. -/
def fetch0 : String → Except String Profile := fun _ => .ok ⟨some "ada"⟩

/-- Per-item pipeline always succeeds. -/
def gen0 : String → ItemOutcome := fun _ => .ok "https://cdn.example.com/p.png" 5

/-- Per-item pipeline raises after the row insert (e.g. the HTML→PNG
conversion fails). -/
def gen1 : String → ItemOutcome := fun _ => .failAfterRecord "HTML to PNG conversion failed"

/-- A queued job row with nonzero counters. -/
def row0 : JobRow :=
  ⟨"job_1", "camp", "queued", 10, 3, 2, 1, none, "<h1></h1>", some "ada", 0, none, none⟩

/-- Row data with flat keys `a` and `b.c`. -/
def d1 : List (String × Pv) := [("a", Pv.s "x"), ("b.c", Pv.s "y")]

/-- Row data with a *nested* map under `b`. -/
def dN : List (String × Pv) := [("b", Pv.d [("c", Pv.s "y")])]

/-- The segment presentation of `"<h1>\x7ba\x7d</h1><p>\x7bb.c\x7d</p>"`. -/
def segs0 : List Tseg :=
  [Tseg.lit "<h1>", Tseg.tok "a", Tseg.lit "</h1><p>", Tseg.tok "b.c", Tseg.lit "</p>"]

/-- A self-declaring template whose `.poster-container` CSS fixes
600×800. -/
def posterTemplate : String :=
  "<!doctype html><html><head><style>.poster-container\x7bwidth:600px;height:800px\x7d</style></head><body><div class=\"poster-container\"></div></body></html>"

/-! # THEOREMS -/

/-! ## Phase lemmas: `fetchPhase` -/

theorem fetchPhase_profiles (t : Nat) (f : String → Except String Profile) :
    ∀ (l : List String) (c : Counters),
      (fetchPhase t f l c).2.1 = profilesOf f l := by
  intro l
  induction l with
  | nil => intro c; simp [fetchPhase, profilesOf]
  | cons i rest ih =>
    intro c
    cases h : f i with
    | error e => simp [fetchPhase, h, profilesOf, List.filterMap_cons, ih]
    | ok p => simp [fetchPhase, h, profilesOf, List.filterMap_cons, ih]

theorem fetchPhase_processed_add (t : Nat) (f : String → Except String Profile) :
    ∀ (l : List String) (c : Counters),
      (fetchPhase t f l c).1.processed + (fetchPhase t f l c).2.1.length
        = c.processed + l.length := by
  intro l
  induction l with
  | nil => intro c; simp [fetchPhase]
  | cons i rest ih =>
    intro c
    cases h : f i with
    | error e =>
      have := ih ⟨c.processed + 1, c.success, c.failure + 1⟩
      simp only [fetchPhase, h] at *
      simp only [List.length_cons]
      omega
    | ok p =>
      have := ih c
      simp only [fetchPhase, h] at *
      simp only [List.length_cons]
      omega

theorem fetchPhase_success (t : Nat) (f : String → Except String Profile) :
    ∀ (l : List String) (c : Counters),
      (fetchPhase t f l c).1.success = c.success := by
  intro l
  induction l with
  | nil => intro c; simp [fetchPhase]
  | cons i rest ih =>
    intro c
    cases h : f i with
    | error e => simpa [fetchPhase, h] using ih ⟨c.processed + 1, c.success, c.failure + 1⟩
    | ok p => simpa [fetchPhase, h] using ih c

theorem fetchPhase_failure (t : Nat) (f : String → Except String Profile) :
    ∀ (l : List String) (c : Counters),
      (fetchPhase t f l c).1.failure = c.failure + fetchFailures f l := by
  intro l
  induction l with
  | nil => intro c; simp [fetchPhase, fetchFailures]
  | cons i rest ih =>
    intro c
    cases h : f i with
    | error e =>
      have := ih ⟨c.processed + 1, c.success, c.failure + 1⟩
      simp only [fetchPhase, h, fetchFailures, List.countP_cons] at *
      simp [h, this]
      omega
    | ok p =>
      have := ih c
      simp only [fetchPhase, h, fetchFailures, List.countP_cons] at *
      simp [h, this]

theorem fetchPhase_processed_le (t : Nat) (f : String → Except String Profile) :
    ∀ (l : List String) (c : Counters),
      c.processed ≤ (fetchPhase t f l c).1.processed := by
  intro l
  induction l with
  | nil => intro c; simp [fetchPhase]
  | cons i rest ih =>
    intro c
    cases h : f i with
    | error e =>
      have := ih ⟨c.processed + 1, c.success, c.failure + 1⟩
      simp only [fetchPhase, h]
      simp only at this
      omega
    | ok p =>
      have := ih c
      simp only [fetchPhase, h]
      omega

theorem fetchPhase_no_pcFalse (t : Nat) (f : String → Except String Profile) :
    ∀ (l : List String) (c : Counters),
      pcFalseCount (fetchPhase t f l c).2.2 = 0 := by
  intro l
  induction l with
  | nil => intro c; simp [fetchPhase, pcFalseCount]
  | cons i rest ih =>
    intro c
    cases h : f i with
    | error e =>
      simpa [fetchPhase, h, pcFalseCount, List.countP_cons] using
        ih ⟨c.processed + 1, c.success, c.failure + 1⟩
    | ok p => simpa [fetchPhase, h, pcFalseCount] using ih c

theorem fetchPhase_no_jobFailed (t : Nat) (f : String → Except String Profile) :
    ∀ (l : List String) (c : Counters),
      jobFailedSteps (fetchPhase t f l c).2.2 = [] := by
  intro l
  induction l with
  | nil => intro c; simp [fetchPhase, jobFailedSteps]
  | cons i rest ih =>
    intro c
    cases h : f i with
    | error e =>
      simpa [fetchPhase, h, jobFailedSteps] using
        ih ⟨c.processed + 1, c.success, c.failure + 1⟩
    | ok p => simpa [fetchPhase, h, jobFailedSteps] using ih c

/-! ## Phase lemmas: `runBatch` -/

theorem itemRows_length (jobId : String) (gen : String → ItemOutcome) :
    ∀ (items : List (String × Profile)) (base : Nat),
      (itemRows jobId gen base items).length = recordedCount gen items := by
  intro items
  induction items with
  | nil => intro base; simp [itemRows, recordedCount]
  | cons ip rest ih =>
    intro base
    obtain ⟨ident, profile⟩ := ip
    cases h : gen ident <;>
      simp [itemRows, h, recordedCount, List.countP_cons] <;>
      simpa [recordedCount] using ih _

theorem itemRows_append (jobId : String) (gen : String → ItemOutcome) :
    ∀ (l₁ l₂ : List (String × Profile)) (base : Nat),
      itemRows jobId gen base (l₁ ++ l₂)
        = itemRows jobId gen base l₁ ++
          itemRows jobId gen (base + (itemRows jobId gen base l₁).length) l₂ := by
  intro l₁
  induction l₁ with
  | nil => intro l₂ base; simp [itemRows]
  | cons ip rest ih =>
    intro l₂ base
    obtain ⟨ident, profile⟩ := ip
    cases h : gen ident <;>
      simp [itemRows, h, ih, Nat.add_assoc, Nat.add_comm, Nat.add_left_comm]

theorem runBatch_posters (jobId : String) (t : Nat) (gen : String → ItemOutcome) :
    ∀ (items : List (String × Profile)) (c : Counters) (posters : List PosterRow),
      (runBatch jobId t gen items c posters).2.1
        = posters ++ itemRows jobId gen posters.length items := by
  intro items
  induction items with
  | nil => intro c posters; simp [runBatch, itemRows]
  | cons ip rest ih =>
    intro c posters
    obtain ⟨ident, profile⟩ := ip
    cases h : gen ident with
    | ok url ms =>
      simp [runBatch, generate_single_poster, h, itemRows, ih]
    | failAfterRecord msg =>
      simp [runBatch, generate_single_poster, h, itemRows, ih]
    | failBeforeRecord msg =>
      simp [runBatch, generate_single_poster, h, itemRows, ih]

theorem runBatch_counters_indep (jobId : String) (t : Nat) (gen : String → ItemOutcome) :
    ∀ (items : List (String × Profile)) (c : Counters) (posters posters' : List PosterRow),
      (runBatch jobId t gen items c posters).1
        = (runBatch jobId t gen items c posters').1 := by
  intro items
  induction items with
  | nil => intro c posters posters'; simp [runBatch]
  | cons ip rest ih =>
    intro c posters posters'
    obtain ⟨ident, profile⟩ := ip
    cases h : gen ident <;> simp [runBatch, generate_single_poster, h] <;> apply ih

theorem runBatch_steps_indep (jobId : String) (t : Nat) (gen : String → ItemOutcome) :
    ∀ (items : List (String × Profile)) (c : Counters) (posters posters' : List PosterRow),
      (runBatch jobId t gen items c posters).2.2
        = (runBatch jobId t gen items c posters').2.2 := by
  intro items
  induction items with
  | nil => intro c posters posters'; simp [runBatch]
  | cons ip rest ih =>
    intro c posters posters'
    obtain ⟨ident, profile⟩ := ip
    cases h : gen ident <;> simp [runBatch, generate_single_poster, h] <;> apply ih

theorem runBatch_processed (jobId : String) (t : Nat) (gen : String → ItemOutcome) :
    ∀ (items : List (String × Profile)) (c : Counters) (posters : List PosterRow),
      (runBatch jobId t gen items c posters).1.processed = c.processed + items.length := by
  intro items
  induction items with
  | nil => intro c posters; simp [runBatch]
  | cons ip rest ih =>
    intro c posters
    obtain ⟨ident, profile⟩ := ip
    cases h : gen ident <;>
      simp [runBatch, generate_single_poster, h] <;> rw [ih] <;> simp <;> omega

theorem runBatch_failure (jobId : String) (t : Nat) (gen : String → ItemOutcome) :
    ∀ (items : List (String × Profile)) (c : Counters) (posters : List PosterRow),
      (runBatch jobId t gen items c posters).1.failure
        = c.failure + genFailures gen items := by
  intro items
  induction items with
  | nil => intro c posters; simp [runBatch, genFailures]
  | cons ip rest ih =>
    intro c posters
    obtain ⟨ident, profile⟩ := ip
    cases h : gen ident <;>
      simp [runBatch, generate_single_poster, h, genFailures, List.countP_cons] <;>
      rw [ih] <;> simp [genFailures] <;> omega

theorem runBatch_success (jobId : String) (t : Nat) (gen : String → ItemOutcome) :
    ∀ (items : List (String × Profile)) (c : Counters) (posters : List PosterRow),
      (runBatch jobId t gen items c posters).1.success
        = c.success + (items.length - genFailures gen items) := by
  intro items
  induction items with
  | nil => intro c posters; simp [runBatch, genFailures]
  | cons ip rest ih =>
    intro c posters
    obtain ⟨ident, profile⟩ := ip
    have hle : genFailures gen rest ≤ rest.length := List.countP_le_length _
    simp only [genFailures] at hle
    cases h : gen ident <;>
      (simp [runBatch, generate_single_poster, h, genFailures, List.countP_cons];
       rw [ih]; simp [genFailures]; try omega)

theorem runBatch_pcFalse (jobId : String) (t : Nat) (gen : String → ItemOutcome) :
    ∀ (items : List (String × Profile)) (c : Counters) (posters : List PosterRow),
      pcFalseCount (runBatch jobId t gen items c posters).2.2
        = genFailures gen items := by
  intro items
  induction items with
  | nil => intro c posters; simp [runBatch, pcFalseCount, genFailures]
  | cons ip rest ih =>
    intro c posters
    obtain ⟨ident, profile⟩ := ip
    cases h : gen ident <;>
      simp [runBatch, generate_single_poster, h, pcFalseCount, genFailures,
        List.countP_cons] <;>
      simpa [pcFalseCount, genFailures] using ih _ _

theorem runBatch_no_jobFailed (jobId : String) (t : Nat) (gen : String → ItemOutcome) :
    ∀ (items : List (String × Profile)) (c : Counters) (posters : List PosterRow),
      jobFailedSteps (runBatch jobId t gen items c posters).2.2 = [] := by
  intro items
  induction items with
  | nil => intro c posters; simp [runBatch, jobFailedSteps]
  | cons ip rest ih =>
    intro c posters
    obtain ⟨ident, profile⟩ := ip
    cases h : gen ident <;>
      simp [runBatch, generate_single_poster, h, jobFailedSteps] <;>
      simpa [jobFailedSteps] using ih _ _

/-! ## Phase lemmas: chunking and `batchPhase` -/

theorem chunksAux_flatten : ∀ (fuel : Nat) (l : List α), l.length ≤ fuel →
    (chunksAux fuel l).flatten = l := by
  intro fuel
  induction fuel with
  | zero =>
    intro l hl
    have : l = [] := List.length_eq_zero.mp (Nat.le_zero.mp hl)
    simp [this, chunksAux]
  | succ n ih =>
    intro l hl
    match l with
    | [] => simp [chunksAux]
    | x :: xs =>
      have hdrop : ((x :: xs).drop BATCH_SIZE).length ≤ n := by
        simp only [List.length_drop, List.length_cons]
        simp only [List.length_cons] at hl
        simp [BATCH_SIZE]
        omega
      simp only [chunksAux, List.flatten_cons, ih _ hdrop, List.take_append_drop]

theorem chunks_flatten (l : List α) : (chunks l).flatten = l :=
  chunksAux_flatten l.length l (Nat.le_refl _)

theorem batchPhase_posters (jobId : String) (t : Nat) (gen : String → ItemOutcome) :
    ∀ (bs : List (List (String × Profile))) (c : Counters) (posters : List PosterRow),
      (batchPhase jobId t gen bs c posters).2.1
        = posters ++ itemRows jobId gen posters.length bs.flatten := by
  intro bs
  induction bs with
  | nil => intro c posters; simp [batchPhase, itemRows]
  | cons batch rest ih =>
    intro c posters
    simp only [batchPhase, List.flatten_cons]
    rw [ih, runBatch_posters, itemRows_append]
    simp [itemRows_length, List.append_assoc]

theorem batchPhase_counters_indep (jobId : String) (t : Nat) (gen : String → ItemOutcome) :
    ∀ (bs : List (List (String × Profile))) (c : Counters)
      (posters posters' : List PosterRow),
      (batchPhase jobId t gen bs c posters).1
        = (batchPhase jobId t gen bs c posters').1 := by
  intro bs
  induction bs with
  | nil => intro c posters posters'; simp [batchPhase]
  | cons batch rest ih =>
    intro c posters posters'
    simp only [batchPhase]
    rw [runBatch_counters_indep jobId t gen batch c posters posters']
    apply ih

theorem batchPhase_processed (jobId : String) (t : Nat) (gen : String → ItemOutcome) :
    ∀ (bs : List (List (String × Profile))) (c : Counters) (posters : List PosterRow),
      (batchPhase jobId t gen bs c posters).1.processed
        = c.processed + bs.flatten.length := by
  intro bs
  induction bs with
  | nil => intro c posters; simp [batchPhase]
  | cons batch rest ih =>
    intro c posters
    simp only [batchPhase, List.flatten_cons, List.length_append]
    rw [ih, runBatch_processed]
    omega

theorem batchPhase_failure (jobId : String) (t : Nat) (gen : String → ItemOutcome) :
    ∀ (bs : List (List (String × Profile))) (c : Counters) (posters : List PosterRow),
      (batchPhase jobId t gen bs c posters).1.failure
        = c.failure + genFailures gen bs.flatten := by
  intro bs
  induction bs with
  | nil => intro c posters; simp [batchPhase, genFailures]
  | cons batch rest ih =>
    intro c posters
    simp only [batchPhase, List.flatten_cons]
    rw [ih, runBatch_failure]
    simp [genFailures, List.countP_append]
    omega

theorem batchPhase_success (jobId : String) (t : Nat) (gen : String → ItemOutcome) :
    ∀ (bs : List (List (String × Profile))) (c : Counters) (posters : List PosterRow),
      (batchPhase jobId t gen bs c posters).1.success
        = c.success + (bs.flatten.length - genFailures gen bs.flatten) := by
  intro bs
  induction bs with
  | nil => intro c posters; simp [batchPhase, genFailures]
  | cons batch rest ih =>
    intro c posters
    have h1 : genFailures gen batch ≤ batch.length := List.countP_le_length _
    have h2 : genFailures gen rest.flatten ≤ rest.flatten.length := List.countP_le_length _
    simp only [batchPhase, List.flatten_cons]
    rw [ih, runBatch_success]
    simp only [genFailures, List.countP_append, List.length_append]
    simp only [genFailures] at h1 h2
    omega

theorem batchPhase_pcFalse (jobId : String) (t : Nat) (gen : String → ItemOutcome) :
    ∀ (bs : List (List (String × Profile))) (c : Counters) (posters : List PosterRow),
      pcFalseCount (batchPhase jobId t gen bs c posters).2.2
        = genFailures gen bs.flatten := by
  intro bs
  induction bs with
  | nil => intro c posters; simp [batchPhase, pcFalseCount, genFailures]
  | cons batch rest ih =>
    intro c posters
    simp only [batchPhase, List.flatten_cons]
    simp only [pcFalseCount, List.countP_append, List.countP_cons]
    have := runBatch_pcFalse jobId t gen batch c posters
    simp only [pcFalseCount] at this
    rw [this]
    have := ih (runBatch jobId t gen batch c posters).1
        (runBatch jobId t gen batch c posters).2.1
    simp only [pcFalseCount] at this
    simp [this, genFailures, List.countP_append]

theorem batchPhase_no_jobFailed (jobId : String) (t : Nat) (gen : String → ItemOutcome) :
    ∀ (bs : List (List (String × Profile))) (c : Counters) (posters : List PosterRow),
      jobFailedSteps (batchPhase jobId t gen bs c posters).2.2 = [] := by
  intro bs
  induction bs with
  | nil => intro c posters; simp [batchPhase, jobFailedSteps]
  | cons batch rest ih =>
    intro c posters
    simp only [batchPhase]
    simp only [jobFailedSteps, List.filter_append, List.filter_cons]
    have h1 := runBatch_no_jobFailed jobId t gen batch c posters
    have h2 := ih (runBatch jobId t gen batch c posters).1
        (runBatch jobId t gen batch c posters).2.1
    simp only [jobFailedSteps] at h1 h2
    simp [h1, h2]

/-! ## Counter-snapshot invariants (claim C4) -/

theorem snapOK_nil (lo hi : Nat) : SnapOK lo hi [] := by
  constructor
  · intro x hx; simp [snapshots] at hx
  · simp [processedSeq, snapshots]

theorem snapOK_mono {lo hi lo' hi' : Nat} {steps : List Step}
    (h : SnapOK lo hi steps) (h1 : lo' ≤ lo) (h2 : hi ≤ hi') : SnapOK lo' hi' steps := by
  refine ⟨fun x hx => ?_, h.2⟩
  obtain ⟨hs, hl, hh⟩ := h.1 x hx
  exact ⟨hs, Nat.le_trans h1 hl, Nat.le_trans hh h2⟩

theorem snapshots_append (s₁ s₂ : List Step) :
    snapshots (s₁ ++ s₂) = snapshots s₁ ++ snapshots s₂ := by
  simp [snapshots, List.filterMap_append]

theorem processedSeq_append (s₁ s₂ : List Step) :
    processedSeq (s₁ ++ s₂) = processedSeq s₁ ++ processedSeq s₂ := by
  simp [processedSeq, snapshots_append]

theorem snapOK_append {lo m hi : Nat} {s₁ s₂ : List Step}
    (h₁ : SnapOK lo m s₁) (h₂ : SnapOK m hi s₂)
    (hlo : lo ≤ m) (hhi : m ≤ hi) : SnapOK lo hi (s₁ ++ s₂) := by
  constructor
  · intro x hx
    rw [snapshots_append] at hx
    rcases List.mem_append.mp hx with hx | hx
    · obtain ⟨hs, hl, hh⟩ := h₁.1 x hx
      exact ⟨hs, hl, Nat.le_trans hh hhi⟩
    · obtain ⟨hs, hl, hh⟩ := h₂.1 x hx
      exact ⟨hs, Nat.le_trans hlo hl, hh⟩
  · rw [processedSeq_append]
    rw [List.pairwise_append]
    refine ⟨h₁.2, h₂.2, ?_⟩
    intro a ha b hb
    simp only [processedSeq, List.mem_map] at ha hb
    obtain ⟨x, hx, rfl⟩ := ha
    obtain ⟨y, hy, rfl⟩ := hb
    exact Nat.le_trans (h₁.1 x hx).2.2 (h₂.1 y hy).2.1

/-- `l.length = (profilesOf f l).length + fetchFailures f l`. -/
theorem profilesOf_length_add (f : String → Except String Profile) :
    ∀ l : List String, (profilesOf f l).length + fetchFailures f l = l.length := by
  intro l
  induction l with
  | nil => simp [profilesOf, fetchFailures]
  | cons i rest ih =>
    cases h : f i with
    | error e =>
      simp only [profilesOf, fetchFailures, List.filterMap_cons, List.countP_cons, h] at *
      simp [h]
      omega
    | ok p =>
      simp only [profilesOf, fetchFailures, List.filterMap_cons, List.countP_cons, h] at *
      simp [h]
      omega

theorem runBatch_sum (jobId : String) (t : Nat) (gen : String → ItemOutcome)
    (items : List (String × Profile)) (c : Counters) (posters : List PosterRow)
    (hc : c.processed = c.success + c.failure) :
    (runBatch jobId t gen items c posters).1.processed
      = (runBatch jobId t gen items c posters).1.success
        + (runBatch jobId t gen items c posters).1.failure := by
  have h1 := runBatch_processed jobId t gen items c posters
  have h2 := runBatch_success jobId t gen items c posters
  have h3 := runBatch_failure jobId t gen items c posters
  have h4 : genFailures gen items ≤ items.length := List.countP_le_length _
  omega

theorem batchPhase_sum (jobId : String) (t : Nat) (gen : String → ItemOutcome)
    (bs : List (List (String × Profile))) (c : Counters) (posters : List PosterRow)
    (hc : c.processed = c.success + c.failure) :
    (batchPhase jobId t gen bs c posters).1.processed
      = (batchPhase jobId t gen bs c posters).1.success
        + (batchPhase jobId t gen bs c posters).1.failure := by
  have h1 := batchPhase_processed jobId t gen bs c posters
  have h2 := batchPhase_success jobId t gen bs c posters
  have h3 := batchPhase_failure jobId t gen bs c posters
  have h4 : genFailures gen bs.flatten ≤ bs.flatten.length := List.countP_le_length _
  omega

theorem fetchPhase_snapOK (t : Nat) (f : String → Except String Profile) :
    ∀ (l : List String) (c : Counters), c.processed = c.success + c.failure →
      SnapOK c.processed (fetchPhase t f l c).1.processed (fetchPhase t f l c).2.2 := by
  intro l
  induction l with
  | nil => intro c _; simpa [fetchPhase] using snapOK_nil _ _
  | cons i rest ih =>
    intro c hc
    cases h : f i with
    | ok p =>
      have := ih c hc
      simpa [fetchPhase, h] using this
    | error e =>
      have hsum : (⟨c.processed + 1, c.success, c.failure + 1⟩ : Counters).processed
          = (⟨c.processed + 1, c.success, c.failure + 1⟩ : Counters).success
            + (⟨c.processed + 1, c.success, c.failure + 1⟩ : Counters).failure := by
        simp; omega
      have hrest := ih ⟨c.processed + 1, c.success, c.failure + 1⟩ hsum
      have hle := fetchPhase_processed_le t f rest ⟨c.processed + 1, c.success, c.failure + 1⟩
      simp only [fetchPhase, h]
      constructor
      · intro x hx
        simp only [snapshots, List.filterMap_cons, List.mem_cons] at hx
        rcases hx with rfl | hx
        · refine ⟨by simp; omega, Nat.le_succ _, ?_⟩
          simpa using hle
        · obtain ⟨hs, hl, hh⟩ := hrest.1 x hx
          refine ⟨hs, ?_, hh⟩
          simp only at hl
          omega
      · have hseq : processedSeq (Step.progress ⟨c.processed + 1, c.success, c.failure + 1⟩ t
            :: (fetchPhase t f rest ⟨c.processed + 1, c.success, c.failure + 1⟩).2.2)
            = (c.processed + 1)
              :: processedSeq (fetchPhase t f rest
                    ⟨c.processed + 1, c.success, c.failure + 1⟩).2.2 := by
          simp [processedSeq, snapshots]
        rw [hseq, List.pairwise_cons]
        refine ⟨?_, hrest.2⟩
        intro b hb
        simp only [processedSeq, List.mem_map] at hb
        obtain ⟨x, hx, rfl⟩ := hb
        have := (hrest.1 x hx).2.1
        simpa using this

theorem runBatch_snapOK (jobId : String) (t : Nat) (gen : String → ItemOutcome) :
    ∀ (items : List (String × Profile)) (c : Counters) (posters : List PosterRow),
      c.processed = c.success + c.failure →
      SnapOK c.processed (runBatch jobId t gen items c posters).1.processed
        (runBatch jobId t gen items c posters).2.2 := by
  intro items
  induction items with
  | nil => intro c posters _; simpa [runBatch] using snapOK_nil _ _
  | cons ip rest ih =>
    intro c posters hc
    obtain ⟨ident, profile⟩ := ip
    have hstep : ∀ (c' : Counters) (posters' : List PosterRow) (pc : Step)
        (hpc : snapshots [pc] = [])
        (hsum : c'.processed = c'.success + c'.failure)
        (hcc : c.processed ≤ c'.processed)
        (hcc1 : c'.processed ≤ (runBatch jobId t gen rest c' posters').1.processed),
        SnapOK c.processed (runBatch jobId t gen rest c' posters').1.processed
          (pc :: Step.progress c' t :: (runBatch jobId t gen rest c' posters').2.2) := by
      intro c' posters' pc hpc hsum hcc hcc1
      have hrest := ih c' posters' hsum
      constructor
      · intro x hx
        have hxc : x ∈ snapshots (Step.progress c' t
            :: (runBatch jobId t gen rest c' posters').2.2) := by
          have : snapshots (pc :: Step.progress c' t
              :: (runBatch jobId t gen rest c' posters').2.2)
              = snapshots [pc] ++ snapshots (Step.progress c' t
                  :: (runBatch jobId t gen rest c' posters').2.2) := by
            simpa using snapshots_append [pc] _
          rw [this, hpc] at hx
          simpa using hx
        simp only [snapshots, List.filterMap_cons, List.mem_cons] at hxc
        rcases hxc with rfl | hxc
        · exact ⟨hsum, hcc, hcc1⟩
        · obtain ⟨hs, hl, hh⟩ := hrest.1 x hxc
          exact ⟨hs, Nat.le_trans hcc hl, hh⟩
      · have hseq : processedSeq (pc :: Step.progress c' t
            :: (runBatch jobId t gen rest c' posters').2.2)
            = processedSeq (Step.progress c' t
                :: (runBatch jobId t gen rest c' posters').2.2) := by
          have : processedSeq (pc :: Step.progress c' t
              :: (runBatch jobId t gen rest c' posters').2.2)
              = processedSeq [pc] ++ processedSeq (Step.progress c' t
                  :: (runBatch jobId t gen rest c' posters').2.2) := by
            simpa using processedSeq_append [pc] _
          rw [this]
          simp [processedSeq, hpc]
        rw [hseq]
        have hseq2 : processedSeq (Step.progress c' t
            :: (runBatch jobId t gen rest c' posters').2.2)
            = c'.processed :: processedSeq (runBatch jobId t gen rest c' posters').2.2 := by
          simp [processedSeq, snapshots]
        rw [hseq2, List.pairwise_cons]
        refine ⟨?_, hrest.2⟩
        intro b hb
        simp only [processedSeq, List.mem_map] at hb
        obtain ⟨x, hx, rfl⟩ := hb
        exact (hrest.1 x hx).2.1
    have hple : ∀ (c' : Counters) (posters' : List PosterRow),
        c'.processed ≤ (runBatch jobId t gen rest c' posters').1.processed := by
      intro c' posters'
      rw [runBatch_processed]
      omega
    cases h : gen ident with
    | ok url ms =>
      simp only [runBatch, generate_single_poster, h]
      exact hstep ⟨c.processed + 1, c.success + 1, c.failure⟩ _ _ (by simp [snapshots])
        (by simp; omega) (Nat.le_succ _) (hple _ _)
    | failAfterRecord msg =>
      simp only [runBatch, generate_single_poster, h]
      exact hstep ⟨c.processed + 1, c.success, c.failure + 1⟩ _ _ (by simp [snapshots])
        (by simp; omega) (Nat.le_succ _) (hple _ _)
    | failBeforeRecord msg =>
      simp only [runBatch, generate_single_poster, h]
      exact hstep ⟨c.processed + 1, c.success, c.failure + 1⟩ _ _ (by simp [snapshots])
        (by simp; omega) (Nat.le_succ _) (hple _ _)

theorem batchPhase_snapOK (jobId : String) (t : Nat) (gen : String → ItemOutcome) :
    ∀ (bs : List (List (String × Profile))) (c : Counters) (posters : List PosterRow),
      c.processed = c.success + c.failure →
      SnapOK c.processed (batchPhase jobId t gen bs c posters).1.processed
        (batchPhase jobId t gen bs c posters).2.2 := by
  intro bs
  induction bs with
  | nil => intro c posters _; simpa [batchPhase] using snapOK_nil _ _
  | cons batch rest ih =>
    intro c posters hc
    simp only [batchPhase]
    set b := runBatch jobId t gen batch c posters with hb
    have hbsum : b.1.processed = b.1.success + b.1.failure :=
      runBatch_sum jobId t gen batch c posters hc
    have hbp : c.processed ≤ b.1.processed := by
      rw [hb, runBatch_processed]; omega
    have hrp : b.1.processed ≤ (batchPhase jobId t gen rest b.1 b.2.1).1.processed := by
      rw [batchPhase_processed]; omega
    have h1 : SnapOK c.processed b.1.processed b.2.2 :=
      runBatch_snapOK jobId t gen batch c posters hc
    have hrest := ih b.1 b.2.1 hbsum
    have h2 : SnapOK b.1.processed (batchPhase jobId t gen rest b.1 b.2.1).1.processed
        (Step.dbCounters "processing" b.1 :: (batchPhase jobId t gen rest b.1 b.2.1).2.2) := by
      constructor
      · intro x hx
        simp only [snapshots, List.filterMap_cons, List.mem_cons] at hx
        rcases hx with rfl | hx
        · exact ⟨hbsum, Nat.le_refl _, hrp⟩
        · exact hrest.1 x hx
      · have hseq : processedSeq (Step.dbCounters "processing" b.1
            :: (batchPhase jobId t gen rest b.1 b.2.1).2.2)
            = b.1.processed
              :: processedSeq (batchPhase jobId t gen rest b.1 b.2.1).2.2 := by
          simp [processedSeq, snapshots]
        rw [hseq, List.pairwise_cons]
        refine ⟨?_, hrest.2⟩
        intro x hx
        simp only [processedSeq, List.mem_map] at hx
        obtain ⟨y, hy, rfl⟩ := hx
        exact (hrest.1 y hy).2.1
    exact snapOK_append h1 h2 hbp hrp

theorem snapOK_cons_none {lo hi : Nat} {steps : List Step} (st : Step)
    (hst : snapshots [st] = []) (h : SnapOK lo hi steps) : SnapOK lo hi (st :: steps) := by
  have hs : snapshots (st :: steps) = snapshots steps := by
    have := snapshots_append [st] steps
    simpa [hst] using this
  have hp : processedSeq (st :: steps) = processedSeq steps := by
    simp [processedSeq, hs]
  constructor
  · intro x hx; rw [hs] at hx; exact h.1 x hx
  · rw [hp]; exact h.2

theorem countersOKBool_of_snapOK {lo hi t : Nat} {steps : List Step}
    (h : SnapOK lo hi steps) (hhi : hi ≤ t) : countersOKBool t steps = true := by
  simp only [countersOKBool, List.all_eq_true, Bool.and_eq_true, beq_iff_eq,
    decide_eq_true_eq]
  intro x hx
  obtain ⟨hs, _, hh⟩ := h.1 x hx
  exact ⟨hs, Nat.le_trans hh hhi⟩

theorem monoBool_of_pairwise : ∀ l : List Nat, List.Pairwise (· ≤ ·) l → monoBool l = true := by
  intro l
  induction l with
  | nil => intro _; simp [monoBool]
  | cons a r ih =>
    intro h
    cases r with
    | nil => simp [monoBool]
    | cons b r' =>
      rw [List.pairwise_cons] at h
      simp only [monoBool, Bool.and_eq_true, decide_eq_true_eq]
      exact ⟨h.1 b (by simp), ih h.2⟩

/-- The fetch-phase counters are consistent. -/
theorem fetchPhase_out_sum (t : Nat) (f : String → Except String Profile)
    (l : List String) :
    (fetchPhase t f l ⟨0, 0, 0⟩).1.processed
      = (fetchPhase t f l ⟨0, 0, 0⟩).1.success + (fetchPhase t f l ⟨0, 0, 0⟩).1.failure := by
  have ha := fetchPhase_processed_add t f l ⟨0, 0, 0⟩
  have hs := fetchPhase_success t f l ⟨0, 0, 0⟩
  have hf := fetchPhase_failure t f l ⟨0, 0, 0⟩
  have hp := fetchPhase_profiles t f l ⟨0, 0, 0⟩
  have hl := profilesOf_length_add f l
  rw [hp] at ha
  simp only at ha hs hf
  omega

/-- At the end of the batch loop, `processed` equals the envelope total. -/
theorem process_job_processed_eq_total (env : Envelope)
    (fetch : String → Except String Profile) (gen : String → ItemOutcome)
    (db : DbState) :
    (batchPhase env.job_id env.total gen
        (chunks (fetchPhase env.total fetch env.idents ⟨0, 0, 0⟩).2.1)
        (fetchPhase env.total fetch env.idents ⟨0, 0, 0⟩).1 db.posters).1.processed
      = env.total := by
  have hbp := batchPhase_processed env.job_id env.total gen
      (chunks (fetchPhase env.total fetch env.idents ⟨0, 0, 0⟩).2.1)
      (fetchPhase env.total fetch env.idents ⟨0, 0, 0⟩).1 db.posters
  rw [chunks_flatten] at hbp
  have ha := fetchPhase_processed_add env.total fetch env.idents ⟨0, 0, 0⟩
  have hlen : env.idents.length = env.total := by
    simp [Envelope.idents, Envelope.total]
  simp only at ha
  omega

/-- Full-trace snapshot invariant for `process_job`. -/
theorem process_job_snapOK (env : Envelope)
    (fetch : String → Except String Profile) (gen : String → ItemOutcome)
    (db : DbState) (now : Nat) :
    SnapOK 0 env.total (process_job env fetch gen db now).2 := by
  have h1 := fetchPhase_snapOK env.total fetch env.idents ⟨0, 0, 0⟩ (by simp)
  have hc1sum := fetchPhase_out_sum env.total fetch env.idents
  have h2 := batchPhase_snapOK env.job_id env.total gen
      (chunks (fetchPhase env.total fetch env.idents ⟨0, 0, 0⟩).2.1)
      (fetchPhase env.total fetch env.idents ⟨0, 0, 0⟩).1 db.posters hc1sum
  have hbsum := batchPhase_sum env.job_id env.total gen
      (chunks (fetchPhase env.total fetch env.idents ⟨0, 0, 0⟩).2.1)
      (fetchPhase env.total fetch env.idents ⟨0, 0, 0⟩).1 db.posters hc1sum
  have hfb : (fetchPhase env.total fetch env.idents ⟨0, 0, 0⟩).1.processed
      ≤ (batchPhase env.job_id env.total gen
          (chunks (fetchPhase env.total fetch env.idents ⟨0, 0, 0⟩).2.1)
          (fetchPhase env.total fetch env.idents ⟨0, 0, 0⟩).1 db.posters).1.processed := by
    rw [batchPhase_processed]; omega
  set b := batchPhase env.job_id env.total gen
      (chunks (fetchPhase env.total fetch env.idents ⟨0, 0, 0⟩).2.1)
      (fetchPhase env.total fetch env.idents ⟨0, 0, 0⟩).1 db.posters with hbdef
  have htail : SnapOK b.1.processed b.1.processed
      [Step.dbCounters "completed" b.1, Step.jobCompleted b.1.success b.1.failure] := by
    constructor
    · intro x hx
      simp only [snapshots, List.filterMap_cons, List.filterMap_nil, List.mem_cons,
        List.not_mem_nil] at hx
      rcases hx with rfl | hx
      · exact ⟨hbsum, Nat.le_refl _, Nat.le_refl _⟩
      · simp at hx
    · simp [processedSeq, snapshots]
  have h2' : SnapOK (fetchPhase env.total fetch env.idents ⟨0, 0, 0⟩).1.processed
      b.1.processed (b.2.2 ++ [Step.dbCounters "completed" b.1,
        Step.jobCompleted b.1.success b.1.failure]) :=
    snapOK_append h2 htail hfb (Nat.le_refl _)
  have hall : SnapOK 0 b.1.processed
      ((fetchPhase env.total fetch env.idents ⟨0, 0, 0⟩).2.2
        ++ (b.2.2 ++ [Step.dbCounters "completed" b.1,
              Step.jobCompleted b.1.success b.1.failure])) :=
    snapOK_append h1 h2' (Nat.zero_le _) hfb
  have hfull : SnapOK 0 b.1.processed (process_job env fetch gen db now).2 := by
    have hsteps : (process_job env fetch gen db now).2
        = Step.dbStatusOnly "processing"
          :: ((fetchPhase env.total fetch env.idents ⟨0, 0, 0⟩).2.2
            ++ (b.2.2 ++ [Step.dbCounters "completed" b.1,
                  Step.jobCompleted b.1.success b.1.failure])) := by
      simp [process_job]
    rw [hsteps]
    exact snapOK_cons_none _ (by simp [snapshots]) hall
  have htot : b.1.processed = env.total := process_job_processed_eq_total env fetch gen db
  rw [htot] at hfull
  exact hfull

/-! ## `process_job` result characterisation -/

theorem process_job_job_status (env : Envelope)
    (fetch : String → Except String Profile) (gen : String → ItemOutcome)
    (db : DbState) (now : Nat) :
    (process_job env fetch gen db now).1.job.status = "completed" := by
  simp [process_job, update_job_status]

theorem process_job_job_processed (env : Envelope)
    (fetch : String → Except String Profile) (gen : String → ItemOutcome)
    (db : DbState) (now : Nat) :
    (process_job env fetch gen db now).1.job.processed_items = env.total := by
  simp only [process_job, update_job_status, Option.getD_some]
  exact process_job_processed_eq_total env fetch gen db

theorem process_job_job_failure (env : Envelope)
    (fetch : String → Except String Profile) (gen : String → ItemOutcome)
    (db : DbState) (now : Nat) :
    (process_job env fetch gen db now).1.job.failure_count
      = fetchFailures fetch env.idents
        + genFailures gen (profilesOf fetch env.idents) := by
  simp only [process_job, update_job_status, Option.getD_some]
  rw [batchPhase_failure, fetchPhase_failure, chunks_flatten, fetchPhase_profiles]
  simp

theorem process_job_job_success (env : Envelope)
    (fetch : String → Except String Profile) (gen : String → ItemOutcome)
    (db : DbState) (now : Nat) :
    (process_job env fetch gen db now).1.job.success_count
      = (profilesOf fetch env.idents).length
        - genFailures gen (profilesOf fetch env.idents) := by
  simp only [process_job, update_job_status, Option.getD_some]
  rw [batchPhase_success, fetchPhase_success, chunks_flatten, fetchPhase_profiles]
  simp

theorem process_job_posters (env : Envelope)
    (fetch : String → Except String Profile) (gen : String → ItemOutcome)
    (db : DbState) (now : Nat) :
    (process_job env fetch gen db now).1.posters
      = db.posters ++ itemRows env.job_id gen db.posters.length
          (profilesOf fetch env.idents) := by
  simp only [process_job]
  rw [batchPhase_posters, chunks_flatten, fetchPhase_profiles]

theorem process_job_posters_length (env : Envelope)
    (fetch : String → Except String Profile) (gen : String → ItemOutcome)
    (db : DbState) (now : Nat) :
    (process_job env fetch gen db now).1.posters.length
      = db.posters.length + recordedCount gen (profilesOf fetch env.idents) := by
  rw [process_job_posters]
  simp [itemRows_length]

theorem process_job_pcFalse (env : Envelope)
    (fetch : String → Except String Profile) (gen : String → ItemOutcome)
    (db : DbState) (now : Nat) :
    pcFalseCount (process_job env fetch gen db now).2
      = genFailures gen (profilesOf fetch env.idents) := by
  simp only [process_job]
  rw [fetchPhase_profiles env.total fetch env.idents ⟨0, 0, 0⟩]
  have h1 := fetchPhase_no_pcFalse env.total fetch env.idents ⟨0, 0, 0⟩
  have h2 := batchPhase_pcFalse env.job_id env.total gen
      (chunks (profilesOf fetch env.idents))
      (fetchPhase env.total fetch env.idents ⟨0, 0, 0⟩).1 db.posters
  rw [chunks_flatten] at h2
  simp only [pcFalseCount, List.countP_cons, List.countP_append] at h1 h2 ⊢
  simp [h1, h2]

theorem process_job_no_jobFailed (env : Envelope)
    (fetch : String → Except String Profile) (gen : String → ItemOutcome)
    (db : DbState) (now : Nat) :
    jobFailedSteps (process_job env fetch gen db now).2 = [] := by
  simp only [process_job]
  have h1 := fetchPhase_no_jobFailed env.total fetch env.idents ⟨0, 0, 0⟩
  have h2 := batchPhase_no_jobFailed env.job_id env.total gen
      (chunks (fetchPhase env.total fetch env.idents ⟨0, 0, 0⟩).2.1)
      (fetchPhase env.total fetch env.idents ⟨0, 0, 0⟩).1 db.posters
  simp only [jobFailedSteps, List.filter_cons, List.filter_append] at h1 h2 ⊢
  simp [h1, h2]

/-! ## Redelivery (`consumeN`) lemmas -/

theorem consumeN_posters_length (env : Envelope)
    (fetch : String → Except String Profile) (gen : String → ItemOutcome) (now : Nat) :
    ∀ (n : Nat) (db : DbState),
      (consumeN env fetch gen now n db).posters.length
        = db.posters.length
          + n * recordedCount gen (profilesOf fetch env.idents) := by
  intro n
  induction n with
  | zero => intro db; simp [consumeN]
  | succ m ih =>
    intro db
    have h := process_job_posters_length env fetch gen db now
    simp only [consumeN]
    rw [ih]
    rw [h]
    ring

theorem consumeN_job_status (env : Envelope)
    (fetch : String → Except String Profile) (gen : String → ItemOutcome) (now : Nat) :
    ∀ (n : Nat) (db : DbState), 1 ≤ n →
      (consumeN env fetch gen now n db).job.status = "completed" := by
  intro n
  induction n with
  | zero => intro db h; omega
  | succ m ih =>
    intro db _
    simp only [consumeN]
    cases m with
    | zero => simpa [consumeN] using process_job_job_status env fetch gen db now
    | succ k => exact ih _ (by omega)

theorem consumeN_job_processed (env : Envelope)
    (fetch : String → Except String Profile) (gen : String → ItemOutcome) (now : Nat) :
    ∀ (n : Nat) (db : DbState), 1 ≤ n →
      (consumeN env fetch gen now n db).job.processed_items = env.total := by
  intro n
  induction n with
  | zero => intro db h; omega
  | succ m ih =>
    intro db _
    simp only [consumeN]
    cases m with
    | zero => simpa [consumeN] using process_job_job_processed env fetch gen db now
    | succ k => exact ih _ (by omega)

theorem consumeN_job_success (env : Envelope)
    (fetch : String → Except String Profile) (gen : String → ItemOutcome) (now : Nat) :
    ∀ (n : Nat) (db : DbState), 1 ≤ n →
      (consumeN env fetch gen now n db).job.success_count
        = (profilesOf fetch env.idents).length
          - genFailures gen (profilesOf fetch env.idents) := by
  intro n
  induction n with
  | zero => intro db h; omega
  | succ m ih =>
    intro db _
    simp only [consumeN]
    cases m with
    | zero => simpa [consumeN] using process_job_job_success env fetch gen db now
    | succ k => exact ih _ (by omega)

theorem consumeN_job_failure (env : Envelope)
    (fetch : String → Except String Profile) (gen : String → ItemOutcome) (now : Nat) :
    ∀ (n : Nat) (db : DbState), 1 ≤ n →
      (consumeN env fetch gen now n db).job.failure_count
        = fetchFailures fetch env.idents
          + genFailures gen (profilesOf fetch env.idents) := by
  intro n
  induction n with
  | zero => intro db h; omega
  | succ m ih =>
    intro db _
    simp only [consumeN]
    cases m with
    | zero => simpa [consumeN] using process_job_job_failure env fetch gen db now
    | succ k => exact ih _ (by omega)

/-! ## Row-mode fill: `pyReplace` laws -/

theorem braceFreeB_eq (s : String) :
    braceFreeB s = true ↔ '\x7b' ∉ s.data ∧ '\x7d' ∉ s.data := by
  simp [braceFreeB]

theorem pyReplaceAux_skip_append (old new : List Char) :
    ∀ (l B : List Char), pyReplaceAux old new (l ++ B) l.length
      = pyReplaceAux old new B 0 := by
  intro l
  induction l with
  | nil => intro B; rfl
  | cons x l' ih =>
    intro B
    simpa [pyReplaceAux] using ih B

theorem pyReplaceAux_cons_ne (old' new : List Char) (a : Char) (ha : a ≠ '\x7b')
    (l : List Char) :
    pyReplaceAux ('\x7b' :: old') new (a :: l) 0
      = a :: pyReplaceAux ('\x7b' :: old') new l 0 := by
  have hpre : (('\x7b' :: old').isPrefixOf (a :: l)) = false := by
    simp [List.isPrefixOf]
    intro h
    exact absurd h.symm ha
  simp [pyReplaceAux, hpre]

theorem pyReplaceAux_append_left (old' new : List Char) :
    ∀ (A B : List Char), '\x7b' ∉ A →
      pyReplaceAux ('\x7b' :: old') new (A ++ B) 0
        = A ++ pyReplaceAux ('\x7b' :: old') new B 0 := by
  intro A
  induction A with
  | nil => intro B _; rfl
  | cons a A' ih =>
    intro B hA
    have ha : a ≠ '\x7b' := fun h => hA (by simp [h])
    have hA' : '\x7b' ∉ A' := fun h => hA (by simp [h])
    rw [List.cons_append, pyReplaceAux_cons_ne old' new a ha, ih B hA']
    simp

theorem prefix_token_true (x R : List Char) :
    ((x ++ ['\x7d']).isPrefixOf (x ++ '\x7d' :: R)) = true := by
  rw [List.isPrefixOf_iff_prefix]
  exact ⟨R, by simp⟩

theorem token_prefix_false : ∀ (x y R : List Char), '\x7d' ∉ x → '\x7d' ∉ y → x ≠ y →
    ((x ++ ['\x7d']).isPrefixOf (y ++ '\x7d' :: R)) = false := by
  intro x
  induction x with
  | nil =>
    intro y R _ hy hxy
    cases y with
    | nil => exact absurd rfl hxy
    | cons b y' =>
      have hb : '\x7d' ≠ b := fun h => hy (by simp [h.symm])
      simp [List.isPrefixOf]
      intro h
      exact absurd h hb
  | cons a x' ih =>
    intro y R hx hy hxy
    have ha : a ≠ '\x7d' := fun h => hx (by simp [h])
    cases y with
    | nil =>
      simp [List.isPrefixOf]
      intro h
      exact absurd h ha
    | cons b y' =>
      have hx' : '\x7d' ∉ x' := fun h => hx (by simp [h])
      have hy' : '\x7d' ∉ y' := fun h => hy (by simp [h])
      by_cases hab : a = b
      · subst hab
        have hxy' : x' ≠ y' := fun h => hxy (by rw [h])
        simpa [List.isPrefixOf] using ih y' R hx' hy' hxy'
      · simp [List.isPrefixOf]
        intro h
        exact absurd h hab

/-- One column pass replaces exactly the `{c}` tokens of a rendered
template by `v`, leaving everything else intact. -/
theorem pyReplace_renderL (c v : String) (hc : braceFreeB c = true) :
    ∀ segs : List Tseg, (∀ seg ∈ segs, segBraceFree seg = true) →
      pyReplaceAux ('\x7b' :: (c.data ++ ['\x7d'])) v.data (renderL segs) 0
        = renderL (segs.map (substOne c v)) := by
  intro segs
  induction segs with
  | nil => intro _; rfl
  | cons seg rest ih =>
    intro hseg
    have hrest : ∀ s ∈ rest, segBraceFree s = true :=
      fun s hs => hseg s (List.mem_cons_of_mem _ hs)
    cases seg with
    | lit s =>
      have hs := hseg (.lit s) (List.mem_cons_self _ _)
      simp only [segBraceFree] at hs
      have hnb : '\x7b' ∉ s.data := ((braceFreeB_eq s).mp hs).1
      simp only [renderL, List.map_cons, substOne]
      rw [pyReplaceAux_append_left _ _ _ _ hnb, ih hrest]
    | tok t =>
      have ht := hseg (.tok t) (List.mem_cons_self _ _)
      simp only [segBraceFree] at ht
      obtain ⟨ht1, ht2⟩ := (braceFreeB_eq t).mp ht
      obtain ⟨hc1, hc2⟩ := (braceFreeB_eq c).mp hc
      by_cases htc : t = c
      · subst htc
        have hpre : (('\x7b' :: (t.data ++ ['\x7d'])).isPrefixOf
            ('\x7b' :: (t.data ++ '\x7d' :: renderL rest))) = true := by
          simp [List.isPrefixOf, prefix_token_true t.data (renderL rest)]
        simp only [renderL, List.map_cons, substOne, if_pos rfl]
        simp only [pyReplaceAux, hpre, List.isEmpty_cons, Bool.not_false, Bool.and_true,
          Bool.and_self, if_pos]
        have hsk : t.data ++ '\x7d' :: renderL rest
            = (t.data ++ ['\x7d']) ++ renderL rest := by simp
        have hlen : ('\x7b' :: (t.data ++ ['\x7d'])).length - 1
            = (t.data ++ ['\x7d']).length := by simp
        rw [hsk, hlen, pyReplaceAux_skip_append, ih hrest]
      · have hdata : c.data ≠ t.data := fun h => htc (by
          cases c; cases t; simp only at h; rw [h])
        have hpre : (('\x7b' :: (c.data ++ ['\x7d'])).isPrefixOf
            ('\x7b' :: (t.data ++ '\x7d' :: renderL rest))) = false := by
          simpa [List.isPrefixOf] using
            token_prefix_false c.data t.data (renderL rest) hc2 ht2 hdata
        simp only [renderL, List.map_cons, substOne, if_neg htc]
        simp only [pyReplaceAux, hpre, Bool.false_and, Bool.and_self, if_neg,
          Bool.false_eq_true, not_false_eq_true]
        rw [pyReplaceAux_append_left _ _ _ _ ht1,
          pyReplaceAux_cons_ne _ _ '\x7d' (by decide) _, ih hrest]

theorem substSeg_nil (data : List (String × Pv)) (seg : Tseg) :
    substSeg data [] seg = seg := by
  cases seg <;> simp [substSeg]

theorem substSeg_cons (data : List (String × Pv)) (c : String) (cs : List String)
    (seg : Tseg) :
    substSeg data cs (substOne c (flatValue data c) seg)
      = substSeg data (c :: cs) seg := by
  cases seg with
  | lit s => simp [substOne, substSeg]
  | tok t =>
    by_cases h : t = c
    · subst h
      simp [substOne, substSeg]
    · by_cases hcs : t ∈ cs
      · simp [substOne, substSeg, h, hcs]
      · simp [substOne, substSeg, h, hcs]

/-- The `for col in columns` loop of `replace_placeholders` on a rendered
template substitutes every listed token by its flat value. -/
theorem fold_fillColumn (data : List (String × Pv)) :
    ∀ (columns : List String) (segs : List Tseg),
      (∀ seg ∈ segs, segBraceFree seg = true) →
      (∀ col ∈ columns, braceFreeB col = true
        ∧ braceFreeB (flatValue data col) = true ∧ lowerS col ∉ imageCols) →
      List.foldl (fillColumn data) (renderT segs) columns
        = renderT (segs.map (substSeg data columns)) := by
  intro columns
  induction columns with
  | nil =>
    intro segs _ _
    have hmap : segs.map (substSeg data []) = segs := by
      rw [List.map_congr_left fun a _ => substSeg_nil data a]
      exact List.map_id segs
    rw [List.foldl_nil, hmap]
  | cons c cs ih =>
    intro segs hseg hcol
    obtain ⟨hcb, hvb, himg⟩ := hcol c (List.mem_cons_self _ _)
    have hstep : fillColumn data (renderT segs) c
        = renderT (segs.map (substOne c (flatValue data c))) := by
      simp only [fillColumn]
      rw [if_neg himg]
      show pyReplaceS (renderT segs) ("\x7b" ++ c ++ "\x7d") (flatValue data c)
        = renderT (segs.map (substOne c (flatValue data c)))
      have hold : ("\x7b" ++ c ++ "\x7d").data = '\x7b' :: (c.data ++ ['\x7d']) := by
        simp [String.data_append]
      simp only [pyReplaceS, pyReplace, hold, renderT]
      exact congrArg String.mk (pyReplace_renderL c (flatValue data c) hcb segs hseg)
    have hseg' : ∀ seg ∈ segs.map (substOne c (flatValue data c)),
        segBraceFree seg = true := by
      intro seg hm
      obtain ⟨s0, hs0, rfl⟩ := List.mem_map.mp hm
      cases s0 with
      | lit s => simpa [substOne, segBraceFree] using hseg (.lit s) hs0
      | tok t =>
        by_cases h : t = c
        · simpa [substOne, segBraceFree, h] using hvb
        · simpa [substOne, segBraceFree, h] using hseg (.tok t) hs0
    have hcol' : ∀ col ∈ cs, braceFreeB col = true
        ∧ braceFreeB (flatValue data col) = true ∧ lowerS col ∉ imageCols :=
      fun col hm => hcol col (List.mem_cons_of_mem _ hm)
    rw [List.foldl_cons, hstep, ih _ hseg' hcol', List.map_map]
    congr 1
    exact List.map_congr_left fun seg _ => substSeg_cons data c cs seg

theorem renderL_no_brace : ∀ segs : List Tseg,
    (∀ seg ∈ segs, ∃ s, seg = Tseg.lit s ∧ braceFreeB s = true) →
    '\x7b' ∉ renderL segs := by
  intro segs
  induction segs with
  | nil => intro _; simp [renderL]
  | cons seg rest ih =>
    intro hseg
    obtain ⟨s, rfl, hs⟩ := hseg seg (List.mem_cons_self _ _)
    have hrest := ih fun x hx => hseg x (List.mem_cons_of_mem _ hx)
    have hnb : '\x7b' ∉ s.data := ((braceFreeB_eq s).mp hs).1
    simp only [renderL, List.mem_append]
    rintro (h | h)
    · exact hnb h
    · exact hrest h

theorem stripScriptsAux_subset : ∀ (f : Nat) (l : List Char) (x : Char),
    x ∈ stripScriptsAux f l → x ∈ l := by
  intro f
  induction f with
  | zero => intro l x hx; simpa [stripScriptsAux] using hx
  | succ f ih =>
    intro l x hx
    cases l with
    | nil => simp [stripScriptsAux] at hx
    | cons c rest =>
      simp only [stripScriptsAux] at hx
      by_cases hcond : (isPrefixCI "<script".data (c :: rest)
          && scriptBoundary (c :: rest)) = true
      · rw [if_pos hcond] at hx
        cases hidx : findIdxCI "</script>".data (c :: rest) with
        | some j =>
          rw [hidx] at hx
          exact List.drop_subset _ _ (ih _ x hx)
        | none =>
          rw [hidx] at hx
          rcases List.mem_cons.mp hx with rfl | hx
          · exact List.mem_cons_self _ _
          · exact List.mem_cons_of_mem _ (ih _ x hx)
      · rw [if_neg hcond] at hx
        rcases List.mem_cons.mp hx with rfl | hx
        · exact List.mem_cons_self _ _
        · exact List.mem_cons_of_mem _ (ih _ x hx)

theorem findTokensAux_no_brace : ∀ (f : Nat) (l : List Char), '\x7b' ∉ l →
    findTokensAux f l = [] := by
  intro f
  induction f with
  | zero => intro l _; rfl
  | succ f ih =>
    intro l hl
    cases l with
    | nil => rfl
    | cons c rest =>
      have hc : c ≠ '\x7b' := fun h => hl (by simp [h])
      have hrest : '\x7b' ∉ rest := fun h => hl (by simp [h])
      simp only [findTokensAux, if_neg hc]
      exact ih rest hrest

theorem extract_no_brace (s : String) (h : '\x7b' ∉ s.data) :
    extract_placeholders s = [] := by
  simp [extract_placeholders, findTokensAux_no_brace _ _ h, dedupFirst, dedupFirstAux]

theorem stripScriptsAux_fuel_irrel : ∀ (f g : Nat) (l : List Char),
    l.length ≤ f → l.length ≤ g → stripScriptsAux f l = stripScriptsAux g l := by
  intro f
  induction f with
  | zero =>
    intro g l hf _
    have : l = [] := List.length_eq_zero.mp (Nat.le_zero.mp hf)
    subst this
    cases g <;> rfl
  | succ f ih =>
    intro g l hf hg
    cases l with
    | nil => cases g <;> rfl
    | cons c rest =>
      cases g with
      | zero => simp at hg
      | succ g' =>
        simp only [stripScriptsAux]
        by_cases hcond : (isPrefixCI "<script".data (c :: rest)
            && scriptBoundary (c :: rest)) = true
        · rw [if_pos hcond, if_pos hcond]
          cases hidx : findIdxCI "</script>".data (c :: rest) with
          | some j =>
            apply ih
            · simp only [List.length_drop, List.length_cons] at *
              omega
            · simp only [List.length_drop, List.length_cons] at *
              omega
          | none =>
            rw [ih g' rest (by simpa using Nat.le_of_succ_le_succ hf)
              (by simpa using Nat.le_of_succ_le_succ hg)]
        · rw [if_neg hcond, if_neg hcond]
          rw [ih g' rest (by simpa using Nat.le_of_succ_le_succ hf)
            (by simpa using Nat.le_of_succ_le_succ hg)]

theorem stripScriptsAux_cons_nomatch (f : Nat) (c : Char) (rest : List Char)
    (h : isPrefixCI "<script".data (c :: rest) = false) :
    stripScriptsAux (f + 1) (c :: rest) = c :: stripScriptsAux f rest := by
  simp [stripScriptsAux, h]

theorem stripScriptsAux_cons_match (f : Nat) (c : Char) (rest : List Char) (j : Nat)
    (h1 : isPrefixCI "<script".data (c :: rest) = true)
    (h2 : scriptBoundary (c :: rest) = true)
    (h3 : findIdxCI "</script>".data (c :: rest) = some j) :
    stripScriptsAux (f + 1) (c :: rest) = stripScriptsAux f ((c :: rest).drop (j + 9)) := by
  simp [stripScriptsAux, h1, h2, h3]

theorem ltFree_chars {s : String} (h : ltFree s = true) :
    ∀ a ∈ s.data, (charLower a == '<') = false := by
  intro a ha
  have := (List.all_eq_true.mp h) a ha
  simpa using this

theorem isPrefixCI_head_lt_false (pat : List Char) (ps : List Char)
    (hpat : lowerList pat = '<' :: ps) (x : Char) (hx : (charLower x == '<') = false)
    (l : List Char) : isPrefixCI pat (x :: l) = false := by
  have hne : (('<' : Char) == charLower x) = false :=
    beq_eq_false_iff_ne.mpr (Ne.symm (beq_eq_false_iff_ne.mp hx))
  simp only [isPrefixCI, lowerList, List.map_cons]
  simp only [lowerList] at hpat
  rw [hpat]
  simp only [List.isPrefixOf, hne, Bool.false_and]

theorem stripScriptsAux_append_ltFree :
    ∀ (A rest : List Char) (f : Nat), (∀ a ∈ A, (charLower a == '<') = false) →
      (A ++ rest).length ≤ f →
      stripScriptsAux f (A ++ rest) = A ++ stripScriptsAux rest.length rest := by
  intro A
  induction A with
  | nil =>
    intro rest f _ hf
    exact stripScriptsAux_fuel_irrel f rest.length rest (by simpa using hf) (Nat.le_refl _)
  | cons a A' ih =>
    intro rest f hA hf
    have ha : (charLower a == '<') = false := hA a (List.mem_cons_self _ _)
    have hA' : ∀ x ∈ A', (charLower x == '<') = false :=
      fun x hx => hA x (List.mem_cons_of_mem _ hx)
    cases f with
    | zero => simp at hf
    | succ f' =>
      have hpre : isPrefixCI "<script".data (a :: (A' ++ rest)) = false :=
        isPrefixCI_head_lt_false "<script".data "script".data (by decide) a ha _
      have hlen : (A' ++ rest).length ≤ f' := by simp at hf ⊢; omega
      calc stripScriptsAux (f' + 1) ((a :: A') ++ rest)
          = stripScriptsAux (f' + 1) (a :: (A' ++ rest)) := rfl
        _ = a :: stripScriptsAux f' (A' ++ rest) :=
            stripScriptsAux_cons_nomatch f' a _ hpre
        _ = a :: (A' ++ stripScriptsAux rest.length rest) := by rw [ih rest f' hA' hlen]
        _ = (a :: A') ++ stripScriptsAux rest.length rest := rfl

theorem findIdxCI_cons_ne (pat : List Char) (x : Char) (l : List Char)
    (h : isPrefixCI pat (x :: l) = false) :
    findIdxCI pat (x :: l) = (findIdxCI pat l).map (· + 1) := by
  simp [findIdxCI, h]

theorem findIdxCI_append_ltFree :
    ∀ (D rest : List Char), (∀ d ∈ D, (charLower d == '<') = false) →
      findIdxCI "</script>".data (D ++ rest)
        = (findIdxCI "</script>".data rest).map (· + D.length) := by
  intro D
  induction D with
  | nil =>
    intro rest _
    simp only [List.nil_append, List.length_nil]
    cases findIdxCI "</script>".data rest <;> rfl
  | cons d D' ih =>
    intro rest hD
    have hd : (charLower d == '<') = false := hD d (List.mem_cons_self _ _)
    have hD' : ∀ x ∈ D', (charLower x == '<') = false :=
      fun x hx => hD x (List.mem_cons_of_mem _ hx)
    have hpre : isPrefixCI "</script>".data (d :: (D' ++ rest)) = false :=
      isPrefixCI_head_lt_false "</script>".data "/script>".data (by decide) d hd _
    rw [List.cons_append, findIdxCI_cons_ne _ _ _ hpre, ih rest hD']
    cases findIdxCI "</script>".data rest with
    | none => simp
    | some n => simp [List.length_cons]; omega

theorem isPrefixCI_append_self (pat C : List Char) :
    isPrefixCI pat (pat ++ C) = true := by
  simp only [isPrefixCI, lowerList, List.map_append]
  rw [List.isPrefixOf_iff_prefix]
  exact List.prefix_append _ _

theorem isPrefixOf_second_ne (a b x y : Char) (l t : List Char)
    (h : (b == y) = false) : List.isPrefixOf (a :: b :: l) (x :: y :: t) = false := by
  simp [List.isPrefixOf, h]

/-- The first `</script>` after the opened element is the element's own
closer (the body `B` is `<`-free). -/
theorem closer_idx (B C : List Char) (hB : ∀ b ∈ B, (charLower b == '<') = false) :
    findIdxCI "</script>".data
        ("<script>".data ++ (B ++ ("</script>".data ++ C)))
      = some (8 + B.length) := by
  have hself : findIdxCI "</script>".data ("</script>".data ++ C) = some 0 := by
    have hpre : isPrefixCI "</script>".data
        ('<' :: '/' :: 's' :: 'c' :: 'r' :: 'i' :: 'p' :: 't' :: '>' :: C) = true :=
      isPrefixCI_append_self "</script>".data C
    show findIdxCI "</script>".data
        ('<' :: '/' :: 's' :: 'c' :: 'r' :: 'i' :: 'p' :: 't' :: '>' :: C) = some 0
    simp [findIdxCI, hpre]
  have step3 : findIdxCI "</script>".data (B ++ ("</script>".data ++ C))
      = some B.length := by
    rw [findIdxCI_append_ltFree B _ hB, hself]
    simp
  have hpos0 : isPrefixCI "</script>".data
      ('<' :: (['s', 'c', 'r', 'i', 'p', 't', '>'] ++ (B ++ ("</script>".data ++ C))))
      = false := by
    simp only [isPrefixCI, lowerList, List.map_cons, List.cons_append]
    exact isPrefixOf_second_ne _ _ _ _ _ _ (by decide)
  have e8 : "<script>".data ++ (B ++ ("</script>".data ++ C))
      = '<' :: (['s', 'c', 'r', 'i', 'p', 't', '>'] ++ (B ++ ("</script>".data ++ C))) := rfl
  rw [e8, findIdxCI_cons_ne _ _ _ hpos0,
    findIdxCI_append_ltFree ['s', 'c', 'r', 'i', 'p', 't', '>'] _ (by decide), step3]
  simp only [Option.map_some', List.length_cons, List.length_nil]
  congr 1
  omega

theorem string_data_ext {s t : String} (h : s.data = t.data) : s = t := by
  cases s
  cases t
  exact congrArg String.mk h

/-- A `<script>` element with a `<`-free body is deleted whole and
scanning resumes after its closer. -/
theorem strip_element (B C : List Char) (hB : ∀ b ∈ B, (charLower b == '<') = false)
    (f : Nat) (hf : ("<script>".data ++ (B ++ ("</script>".data ++ C))).length ≤ f) :
    stripScriptsAux f ("<script>".data ++ (B ++ ("</script>".data ++ C)))
      = stripScriptsAux C.length C := by
  have hlen : ("<script>".data ++ (B ++ ("</script>".data ++ C))).length
      = 17 + B.length + C.length := by
    rw [List.length_append, List.length_append, List.length_append,
      show ("<script>".data.length) = 8 from rfl,
      show ("</script>".data.length) = 9 from rfl]
    omega
  rw [hlen] at hf
  cases f with
  | zero => omega
  | succ f' =>
    have h1 : isPrefixCI "<script".data
        ("<script>".data ++ (B ++ ("</script>".data ++ C))) = true := by
      simp only [isPrefixCI, lowerList, List.map_append]
      rw [List.isPrefixOf_iff_prefix]
      refine List.IsPrefix.trans ?_ (List.prefix_append _ _)
      decide
    have h2 : scriptBoundary ("<script>".data ++ (B ++ ("</script>".data ++ C)))
        = true := rfl
    have h3 := closer_idx B C hB
    have hstep := stripScriptsAux_cons_match f' '<'
      (['s', 'c', 'r', 'i', 'p', 't', '>'] ++ (B ++ ("</script>".data ++ C)))
      (8 + B.length) h1 h2 h3
    refine hstep.trans ?_
    have hdrop : ("<script>".data ++ (B ++ ("</script>".data ++ C))).drop
        (8 + B.length + 9) = C := by
      have e : "<script>".data ++ (B ++ ("</script>".data ++ C))
          = ("<script>".data ++ B ++ "</script>".data) ++ C := by
        simp [List.append_assoc]
      have elen : ("<script>".data ++ B ++ "</script>".data).length
          = 8 + B.length + 9 := by
        rw [List.length_append, List.length_append,
          show ("<script>".data.length) = 8 from rfl,
          show ("</script>".data.length) = 9 from rfl]
      rw [e, ← elen, List.drop_left]
    rw [show ('<' :: (['s', 'c', 'r', 'i', 'p', 't', '>'] ++ (B ++ ("</script>".data ++ C))))
        = "<script>".data ++ (B ++ ("</script>".data ++ C)) from rfl, hdrop]
    exact stripScriptsAux_fuel_irrel f' C.length C (by omega) (Nat.le_refl _)

/-- String-level form: a closed `<script>` element between `<`-free
context is removed together with its whole body. -/
theorem stripScripts_element (A B C : String) (hA : ltFree A = true)
    (hB : ltFree B = true) :
    stripScripts (A ++ "<script>" ++ B ++ "</script>" ++ C) = A ++ stripScripts C := by
  have hdata : (A ++ "<script>" ++ B ++ "</script>" ++ C).data
      = A.data ++ ("<script>".data ++ (B.data ++ ("</script>".data ++ C.data))) := by
    simp [List.append_assoc]
  apply string_data_ext
  show stripScriptsAux (A ++ "<script>" ++ B ++ "</script>" ++ C).data.length
      (A ++ "<script>" ++ B ++ "</script>" ++ C).data
    = (A ++ stripScripts C).data
  rw [hdata]
  rw [stripScriptsAux_append_ltFree A.data
    ("<script>".data ++ (B.data ++ ("</script>".data ++ C.data))) _
    (ltFree_chars hA) (Nat.le_refl _)]
  rw [strip_element B.data C.data (ltFree_chars hB) _ (Nat.le_refl _)]
  simp [stripScripts]

/-! ## Claim theorems -/

theorem length_filter_not_add_length_filter (p : α → Bool) :
    ∀ l : List α, (l.filter fun x => !p x).length + (l.filter p).length = l.length := by
  intro l
  induction l with
  | nil => simp
  | cons x xs ih =>
    cases h : p x <;> simp [List.filter_cons, h] <;> omega

theorem parse_total_eq_items (input : String) :
    (parse_user_identifiers input).1.length + (parse_user_identifiers input).2.length
      = (identifierItems input).length := by
  simp only [parse_user_identifiers, List.length_map]
  exact length_filter_not_add_length_filter pyIsDigit (identifierItems input)

/-- Claim C8 (amended): for an identifier-mode submission, `total` equals
the number of non-empty trimmed tokens of the comma/newline-separated
input, *including duplicates* (no deduplication happens); an input with no
tokens is rejected with `ValueError("No valid user identifiers provided")`
before any database write, so no Job row is created. -/
theorem create_job_total_and_empty_rejection (input : String) (published : Bool) :
    ((identifierItems input).length = 0 →
      create_job input published = .error "No valid user identifiers provided")
    ∧ ((identifierItems input).length ≠ 0 →
      jobTotal (create_job input published) = some (identifierItems input).length) := by
  have htot := parse_total_eq_items input
  constructor
  · intro h0
    simp only [create_job]
    rw [if_pos (by omega)]
  · intro hne
    simp only [create_job, jobTotal]
    rw [if_neg (by omega)]
    simp [jobTotal, htot]

/-- Claim C8 witness: the empty input is rejected; a duplicated identifier
is counted twice. -/
theorem create_job_total_and_empty_rejection_witness :
    create_job " , " true = .error "No valid user identifiers provided"
    ∧ jobTotal (create_job "alice,alice" true) = some 2 := by
  refine ⟨(create_job_total_and_empty_rejection " , " true).1 (by decide), ?_⟩
  have h := (create_job_total_and_empty_rejection "alice,alice" true).2 (by decide)
  rw [h]
  decide

/-- Claim C8 counterexample: the claim's `total = number of *distinct*
identifiers after dedup` is false — `"alice,alice"` yields `total = 2`
while dedup-preserving-order leaves one identifier. -/
theorem create_job_dedup_counterexample :
    jobTotal (create_job "alice,alice" true) = some 2
    ∧ (dedupFirst (identifierItems "alice,alice")).length = 1
    ∧ (2 : Nat) ≠ 1 := by
  refine ⟨by rfl, by decide, by decide⟩

/-- Claim C10 (confirmed): a bare `update_job_status(job_id, status)` call
(all optional arguments omitted) changes only `status` — plus `started_at`
when the new status is `processing` and `completed_at` when it is
`completed` or `failed`; in particular the counters, the error message and
every other column are untouched. -/
theorem update_job_status_frame (row : JobRow) (now : Nat) (st : String) :
    (update_job_status row now st none none none none).status = st
    ∧ (update_job_status row now st none none none none).processed_items
        = row.processed_items
    ∧ (update_job_status row now st none none none none).success_count
        = row.success_count
    ∧ (update_job_status row now st none none none none).failure_count
        = row.failure_count
    ∧ (update_job_status row now st none none none none).error_message
        = row.error_message
    ∧ (update_job_status row now st none none none none).job_id = row.job_id
    ∧ (update_job_status row now st none none none none).campaign_name
        = row.campaign_name
    ∧ (update_job_status row now st none none none none).total_items = row.total_items
    ∧ (update_job_status row now st none none none none).template_html
        = row.template_html
    ∧ (update_job_status row now st none none none none).user_identifiers
        = row.user_identifiers
    ∧ (update_job_status row now st none none none none).created_at = row.created_at
    ∧ (st ≠ "processing" →
        (update_job_status row now st none none none none).started_at = row.started_at)
    ∧ (¬(st = "completed" ∨ st = "failed") →
        (update_job_status row now st none none none none).completed_at
          = row.completed_at) := by
  refine ⟨rfl, rfl, rfl, rfl, rfl, rfl, rfl, rfl, rfl, rfl, rfl, ?_, ?_⟩
  · intro h
    simp [update_job_status, h]
  · intro h
    simp [update_job_status, h]

/-- Claim C10 witness: a bare update to `"queued"` leaves every other
column of a concrete row unchanged, including both timestamps. -/
theorem update_job_status_frame_witness :
    (update_job_status row0 5 "queued" none none none none).status = "queued"
    ∧ (update_job_status row0 5 "queued" none none none none).processed_items
        = row0.processed_items
    ∧ (update_job_status row0 5 "queued" none none none none).success_count
        = row0.success_count
    ∧ (update_job_status row0 5 "queued" none none none none).failure_count
        = row0.failure_count
    ∧ (update_job_status row0 5 "queued" none none none none).started_at
        = row0.started_at
    ∧ (update_job_status row0 5 "queued" none none none none).completed_at
        = row0.completed_at := by
  have h := update_job_status_frame row0 5 "queued"
  exact ⟨h.1, h.2.1, h.2.2.1, h.2.2.2.1, h.2.2.2.2.2.2.2.2.2.2.2.1 (by decide),
    h.2.2.2.2.2.2.2.2.2.2.2.2 (by decide)⟩

/-- Claim C9 counterexample: a `queued` job that is not in this process's
in-memory `_active_jobs` map — the normal situation for a job that has not
yet been dequeued — is *not* cancelled: the endpoint returns
`success=false`, the row stays `queued` and no `job_failed` event is
emitted, contradicting the claim that every pending/queued/processing job
transitions to `cancelled`. -/
theorem cancel_queued_job_counterexample :
    cancel_endpoint [] "job_1" (some row0) 5
      = (⟨200, some false, some "Failed to cancel job"⟩, some row0, []) := by
  decide

/-- Claim C9 (amended): cancelling succeeds exactly when the job id is in
the worker's in-memory active map (i.e. currently being consumed): then
the row becomes `cancelled` and a `job_failed` event with error
`"Job cancelled by user"` (not `"cancelled by user"`) is emitted, and the
endpoint reports success; an active-state job that is not in the map is
left unchanged and the endpoint reports `success=false`. -/
theorem cancel_requires_active_consumption (activeJobs : List String) (jid : String)
    (job : JobRow) (now : Nat)
    (hactive : job.status = "pending" ∨ job.status = "queued"
      ∨ job.status = "processing") :
    (jid ∈ activeJobs →
      cancel_endpoint activeJobs jid (some job) now
        = (⟨200, some true, some "Job cancelled"⟩,
           some (update_job_status job now "cancelled" none none none none),
           [Step.jobFailed "Job cancelled by user"]))
    ∧ (jid ∉ activeJobs →
      cancel_endpoint activeJobs jid (some job) now
        = (⟨200, some false, some "Failed to cancel job"⟩, some job, []))
    ∧ (update_job_status job now "cancelled" none none none none).status
        = "cancelled" := by
  refine ⟨?_, ?_, rfl⟩
  · intro hmem
    simp [cancel_endpoint, cancel_job, hactive, hmem]
  · intro hmem
    simp [cancel_endpoint, cancel_job, hactive, hmem]

/-- Claim C9 witness: cancelling a processing job owned by this process
succeeds and emits `job_failed("Job cancelled by user")`. -/
theorem cancel_requires_active_consumption_witness :
    cancel_endpoint ["job_1"] "job_1" (some row0) 5
      = (⟨200, some true, some "Job cancelled"⟩,
         some (update_job_status row0 5 "cancelled" none none none none),
         [Step.jobFailed "Job cancelled by user"]) :=
  (cancel_requires_active_consumption ["job_1"] "job_1" row0 5 (by decide)).1 (by decide)

/-- Claim C2 counterexample: a dotted token is *not* resolved against
nested maps — with row `{b: {c: "y"}}` and column `b.c`, the flat lookup
`data.get("b.c", "")` misses, so `{b.c}` is replaced by the empty string
instead of `"y"`. -/
theorem dotted_token_not_resolved_counterexample :
    replace_placeholders "<p>\x7bb.c\x7d</p>" dN ["b.c"] = "<p></p>"
    ∧ replace_placeholders "<p>\x7bb.c\x7d</p>" dN ["b.c"] ≠ "<p>y</p>" := by
  decide

/-- Claim C2 (amended): in row mode, for every template presented as an
alternation of brace-free literal segments and `\x7bname\x7d` tokens and
every column list of brace-free non-image columns with brace-free flat
values, `replace_placeholders` equals: substitute each token whose name
is a listed column by the *flat* value `str(row.get(c, ""))` (a dotted
name is a literal flat key; a listed column missing from the row becomes
the empty string; an unlisted token stays a literal token), then strip
`<script>` elements; when every token's column is listed, re-extracting
placeholders from the result yields none.  Independently, script
stripping deletes every closed `<script>` element together with its whole
body whenever the preceding context and the element body are `<`-free. -/
theorem replace_placeholders_row_mode_semantics :
    (∀ (segs : List Tseg) (data : List (String × Pv)) (columns : List String),
      (∀ seg ∈ segs, segBraceFree seg = true) →
      (∀ col ∈ columns, braceFreeB col = true
        ∧ braceFreeB (flatValue data col) = true ∧ lowerS col ∉ imageCols) →
      replace_placeholders (renderT segs) data columns
          = stripScripts (renderT (segs.map (substSeg data columns)))
        ∧ ((∀ seg ∈ segs, tokenListed columns seg = true) →
            extract_placeholders
              (replace_placeholders (renderT segs) data columns) = []))
    ∧ (∀ A B C : String, ltFree A = true → ltFree B = true →
        stripScripts (A ++ "<script>" ++ B ++ "</script>" ++ C)
          = A ++ stripScripts C) := by
  constructor
  · intro segs data columns hseg hcol
    have hfill := fold_fillColumn data columns segs hseg hcol
    have hrw : replace_placeholders (renderT segs) data columns
        = stripScripts (renderT (segs.map (substSeg data columns))) := by
      simp only [replace_placeholders]
      rw [hfill]
    refine ⟨hrw, fun hlisted => ?_⟩
    rw [hrw]
    apply extract_no_brace
    intro hx
    have hmem : '\x7b' ∈ renderL (segs.map (substSeg data columns)) :=
      stripScriptsAux_subset _ _ _ hx
    refine renderL_no_brace (segs.map (substSeg data columns)) ?_ hmem
    intro seg hm
    obtain ⟨s0, hs0, rfl⟩ := List.mem_map.mp hm
    cases s0 with
    | lit s =>
      exact ⟨s, rfl, hseg _ hs0⟩
    | tok t =>
      have ht : t ∈ columns := by
        have := hlisted _ hs0
        simpa [tokenListed] using this
      refine ⟨flatValue data t, ?_, (hcol t ht).2.1⟩
      simp [substSeg, ht]
  · exact fun A B C hA hB => stripScripts_element A B C hA hB

/-- Claim C2 witness: the universal semantics applied to the concrete
template `<h1>\x7ba\x7d</h1><p>\x7bb.c\x7d</p>` with row
`\x7ba: "x", b.c: "y"\x7d` and columns `["a", "b.c"]`, and to a concrete
script element. -/
theorem replace_placeholders_row_mode_semantics_witness :
    replace_placeholders "<h1>\x7ba\x7d</h1><p>\x7bb.c\x7d</p>" d1 ["a", "b.c"]
        = "<h1>x</h1><p>y</p>"
    ∧ extract_placeholders
        (replace_placeholders "<h1>\x7ba\x7d</h1><p>\x7bb.c\x7d</p>" d1 ["a", "b.c"]) = []
    ∧ stripScripts ("hello " ++ "<script>" ++ "evil()" ++ "</script>" ++ "ok</div>")
        = "hello " ++ stripScripts "ok</div>" := by
  have h := replace_placeholders_row_mode_semantics
  have h1 := (h.1 segs0 d1 ["a", "b.c"] (by decide) (by decide))
  have hrender : renderT segs0 = "<h1>\x7ba\x7d</h1><p>\x7bb.c\x7d</p>" := by decide
  have hsub : stripScripts (renderT (segs0.map (substSeg d1 ["a", "b.c"])))
      = "<h1>x</h1><p>y</p>" := by decide
  refine ⟨?_, ?_, ?_⟩
  · rw [← hrender]
    rw [h1.1]
    exact hsub
  · rw [← hrender]
    exact h1.2 (by decide)
  · exact h.2 "hello " "evil()" "ok</div>" (by decide) (by decide)

/-- Claim C3 counterexample: a template that declares its own document
*and* fixes `.poster-container` dimensions in CSS is rasterized at the
CSS dimensions, not the requested ones: requesting 100×50 yields a
600×800 viewport and clip. -/
theorem complete_template_dims_override_counterexample :
    html_to_png_plan posterTemplate 100 50 = ⟨600, 800, 600, 800, false⟩
    ∧ html_to_png_plan posterTemplate 100 50 ≠ ⟨100, 50, 100, 50, false⟩ := by
  decide

/-- Claim C3 (amended): the screenshot clip always equals the viewport;
a bare fragment gets exactly the requested `width × height` (wrapped in a
host document); a self-declaring template is used unwrapped and keeps the
requested dimensions only when nothing can be extracted from its CSS
(no `.poster-container` rule and no case-sensitive `width:`/`height:` px
pair) — otherwise the extracted dimensions override the request. -/
theorem html_to_png_viewport_clip (html : String) (w h : Nat) :
    (html_to_png_plan html w h).clip_width = (html_to_png_plan html w h).viewport_width
    ∧ (html_to_png_plan html w h).clip_height
        = (html_to_png_plan html w h).viewport_height
    ∧ (isCompleteHtml html = false →
        (html_to_png_plan html w h).viewport_width = w
        ∧ (html_to_png_plan html w h).viewport_height = h
        ∧ (html_to_png_plan html w h).wrapped = true)
    ∧ (isCompleteHtml html = true →
        (html_to_png_plan html w h).wrapped = false
        ∧ (posterContainerDim "width".data html.data = none →
            firstDim "width".data html.data = none →
              (html_to_png_plan html w h).viewport_width = w
              ∧ (html_to_png_plan html w h).viewport_height = h)) := by
  refine ⟨?_, ?_, ?_, ?_⟩
  · simp [html_to_png_plan]
  · simp [html_to_png_plan]
  · intro hc
    simp [html_to_png_plan, hc]
  · intro hc
    refine ⟨by simp [html_to_png_plan, hc], ?_⟩
    intro hpc hfd
    simp [html_to_png_plan, hc, hpc, hfd]

/-- Claim C3 witness: a bare fragment at 100×50 renders at exactly
100×50. -/
theorem html_to_png_viewport_clip_witness :
    (html_to_png_plan "<h1>Hello Ada</h1>" 100 50).viewport_width = 100
    ∧ (html_to_png_plan "<h1>Hello Ada</h1>" 100 50).viewport_height = 50
    ∧ (html_to_png_plan "<h1>Hello Ada</h1>" 100 50).wrapped = true :=
  (html_to_png_viewport_clip "<h1>Hello Ada</h1>" 100 50).2.2.1 (by decide)

/-- Claim C4 (confirmed): over the whole life of a job, every counter
snapshot written to the job row or published as a progress event satisfies
`processed = success + failure` and `processed ≤ total`, and the sequence
of published/written `processed` values is monotone non-decreasing. -/
theorem progress_counter_invariants (env : Envelope)
    (fetch : String → Except String Profile) (gen : String → ItemOutcome)
    (db : DbState) (now : Nat) :
    countersOKBool env.total (process_job env fetch gen db now).2 = true
    ∧ monoBool (processedSeq (process_job env fetch gen db now).2) = true := by
  have h := process_job_snapOK env fetch gen db now
  exact ⟨countersOKBool_of_snapOK h (Nat.le_refl _), monoBool_of_pairwise _ h.2⟩

/-- Claim C5 (confirmed): per-item failures never fail the job — however
many profile fetches or per-item pipelines fail, the worker records each
failure in the failure counter, publishes `poster_completed(success=false)`
for each pipeline failure, keeps processing (`processed` reaches `total`),
never emits `job_failed`, and the terminal state reached by natural drain
is `completed`. -/
theorem item_failures_never_fail_job (env : Envelope)
    (fetch : String → Except String Profile) (gen : String → ItemOutcome)
    (db : DbState) (now : Nat) :
    (process_job env fetch gen db now).1.job.status = "completed"
    ∧ (process_job env fetch gen db now).1.job.processed_items = env.total
    ∧ (process_job env fetch gen db now).1.job.failure_count
        = fetchFailures fetch env.idents + genFailures gen (profilesOf fetch env.idents)
    ∧ pcFalseCount (process_job env fetch gen db now).2
        = genFailures gen (profilesOf fetch env.idents)
    ∧ jobFailedSteps (process_job env fetch gen db now).2 = [] :=
  ⟨process_job_job_status env fetch gen db now,
   process_job_job_processed env fetch gen db now,
   process_job_job_failure env fetch gen db now,
   process_job_pcFalse env fetch gen db now,
   process_job_no_jobFailed env fetch gen db now⟩

/-- Claim C7 (code bug): an item whose pipeline raises after
`create_poster_record` is never moved to a terminal status — the row stays
`pending` forever while the job itself completes, because
`_generate_single_poster` re-raises without an `update_poster_status`
call on its failure path. -/
theorem failed_item_row_stays_pending :
    (process_job env0 fetch0 gen1 db0 0).1.job.status = "completed"
    ∧ (process_job env0 fetch0 gen1 db0 0).1.posters.map PosterRow.status
        = ["pending"]
    ∧ (process_job env0 fetch0 gen1 db0 0).1.job.failure_count = 1 := by
  decide

/-- Claim C1 counterexample: redelivery is not idempotent — consuming the
same envelope twice re-runs the whole job and *re-inserts* the per-item
rows (fresh primary keys), so the row set differs from a single
consumption; in particular the second delivery of the already-`completed`
job is fully reprocessed, not acknowledged without side effects. -/
theorem redelivery_not_idempotent_counterexample :
    (process_job env0 fetch0 gen0 db0 0).1.job.status = "completed"
    ∧ (process_job env0 fetch0 gen0 db0 0).1.posters.length = 1
    ∧ (consumeN env0 fetch0 gen0 0 2 db0).posters.length = 2
    ∧ (consumeN env0 fetch0 gen0 0 2 db0).posters
        ≠ (process_job env0 fetch0 gen0 db0 0).1.posters := by
  decide

/-- Claim C1 (amended): consuming the same envelope `N ≥ 1` times yields
the same final job counters and terminal status as consuming it once
(counter writes are absolute, recomputed per delivery), but the per-item
`generated_posters` rows are *not* deduplicated: each delivery appends a
fresh set of rows, so after `N` deliveries the table holds `N` copies; a
redelivered envelope whose job is already terminal is likewise fully
reprocessed rather than acknowledged without side effects. -/
theorem redelivery_counters_stable_rows_duplicated (env : Envelope)
    (fetch : String → Except String Profile) (gen : String → ItemOutcome)
    (now : Nat) (db : DbState) (n : Nat) (hn : 1 ≤ n) :
    (consumeN env fetch gen now n db).job.status
        = (process_job env fetch gen db now).1.job.status
    ∧ (consumeN env fetch gen now n db).job.processed_items
        = (process_job env fetch gen db now).1.job.processed_items
    ∧ (consumeN env fetch gen now n db).job.success_count
        = (process_job env fetch gen db now).1.job.success_count
    ∧ (consumeN env fetch gen now n db).job.failure_count
        = (process_job env fetch gen db now).1.job.failure_count
    ∧ (consumeN env fetch gen now n db).posters.length
        = db.posters.length
          + n * ((process_job env fetch gen db now).1.posters.length
                  - db.posters.length) := by
  refine ⟨?_, ?_, ?_, ?_, ?_⟩
  · rw [consumeN_job_status env fetch gen now n db hn,
      process_job_job_status env fetch gen db now]
  · rw [consumeN_job_processed env fetch gen now n db hn,
      process_job_job_processed env fetch gen db now]
  · rw [consumeN_job_success env fetch gen now n db hn,
      process_job_job_success env fetch gen db now]
  · rw [consumeN_job_failure env fetch gen now n db hn,
      process_job_job_failure env fetch gen db now]
  · rw [consumeN_posters_length env fetch gen now n db,
      process_job_posters_length env fetch gen db now]
    have hK : db.posters.length + recordedCount gen (profilesOf fetch env.idents)
        - db.posters.length = recordedCount gen (profilesOf fetch env.idents) := by
      omega
    rw [hK]

/-- Claim C1 witness: two deliveries of a one-item envelope leave the same
counters as one delivery but double the poster rows. -/
theorem redelivery_counters_stable_rows_duplicated_witness :
    (consumeN env0 fetch0 gen0 0 2 db0).job.status
        = (process_job env0 fetch0 gen0 db0 0).1.job.status
    ∧ (consumeN env0 fetch0 gen0 0 2 db0).job.processed_items
        = (process_job env0 fetch0 gen0 db0 0).1.job.processed_items
    ∧ (consumeN env0 fetch0 gen0 0 2 db0).job.success_count
        = (process_job env0 fetch0 gen0 db0 0).1.job.success_count
    ∧ (consumeN env0 fetch0 gen0 0 2 db0).job.failure_count
        = (process_job env0 fetch0 gen0 db0 0).1.job.failure_count
    ∧ (consumeN env0 fetch0 gen0 0 2 db0).posters.length
        = db0.posters.length
          + 2 * ((process_job env0 fetch0 gen0 db0 0).1.posters.length
                  - db0.posters.length) :=
  redelivery_counters_stable_rows_duplicated env0 fetch0 gen0 0 db0 2 (by decide)

/-- Claim C6 (code bug): the worker's upload call binds the storage key to
`upload_image`'s `data_url` parameter and leaves `filename = None`
(`upload_image(image_data_url, f"{job_id}/{username}_{ts}.png")`, both
positional), so with S3 configured the put is attempted with `Key=None`
and fails, and without S3 the returned record carries `key = None` and a
`data:` URL — never a blob-store URL string at the intended key; the
caller then stores this dict where a URL string is expected. -/
theorem upload_call_misbinds_filename (s3Base : String) (png : List Nat)
    (jobId username : String) (t : Nat) :
    generate_poster_upload true s3Base png jobId username t
        = .error "Parameter validation failed: invalid Key None"
    ∧ generate_poster_upload false s3Base png jobId username t
        = .ok ⟨"data:image/png;base64," ++ base64EncodeS png, none⟩ := by
  constructor
  · simp [generate_poster_upload, upload_image, upload_to_s3, Except.map]
  · simp [generate_poster_upload, upload_image]

end PosterGen
